import Mathlib

set_option maxHeartbeats 1000000
set_option maxRecDepth 4000
set_option linter.unusedVariables false

namespace Tracker

/-!
Shallow embedding of the task-classification and progress-aggregation core of
the progress-tracker server (server.js together with goals.config.js).

Conventions of the embedding:
* JS objects whose keys are strings are modelled as association lists, looked
  up with List.lookup; JS object literals never carry duplicate keys, so
  theorems about arbitrary goal specifications carry a Nodup hypothesis.
* A JS value that may be undefined is modelled as an Option.
* The JS expression tag.name.toLowerCase() in the phase-2 loop of
  categorizeTask throws a TypeError when the tag has no name; categorizeTask
  is therefore embedded as returning Except Unit (Option Mapping), where
  .error models the thrown exception.
* Times (Date.now(), parsed config dates) are Unix epoch milliseconds,
  modelled as Int.
* Case-insensitive JS regexes are embedded as values of a small pattern type
  Pat together with a backtracking matcher reTest that mirrors
  RegExp.prototype.test search semantics.
-/

structure Mapping where
  category : String
  deliverable : String
deriving DecidableEq

structure Tag where
  gid : Option String
  name : Option String
deriving DecidableEq

structure Task where
  gid : String
  name : String
  tags : List Tag
  assignee : Option String
  followers : List (Option String)
  completed_at : Option String
deriving DecidableEq

-- JS String.prototype.toLowerCase restricted to the ASCII case mapping.
def jsToLower (s : String) : String := String.mk (s.data.map Char.toLower)

-- JS String.prototype.includes: case-sensitive substring test.
def leadMatch : List Char → List Char → Bool
  | [], _ => true
  | _ :: _, [] => false
  | a :: as, b :: bs => a == b && leadMatch as bs

def subMatch : List Char → List Char → Bool
  | [], needle => needle.isEmpty
  | h :: t, needle => leadMatch needle (h :: t) || subMatch t needle

def containsStr (s sub : String) : Bool := subMatch s.data sub.data

/-- Pattern language covering exactly the regex constructs used by the
exclusion, confirmation and agentic-pattern tables of the server:
case-insensitive literals, sequencing, alternation, optional groups,
one-or-more whitespace, one-or-more digits, and word boundaries. -/
inductive Pat where
  | eps
  | str (s : String)
  | seq (p q : Pat)
  | alt (p q : Pat)
  | opt (p : Pat)
  | ws1
  | digits1
  | wb
deriving DecidableEq

def pseq (ps : List Pat) : Pat := ps.foldr Pat.seq Pat.eps

-- JS regex word characters for word boundaries.
def isWordChar (c : Char) : Bool := c.isAlphanum || c == '_'

-- JS regex whitespace characters, restricted to the ASCII range.
def isSpaceChar (c : Char) : Bool :=
  c == ' ' || c.toNat == 9 || c.toNat == 10 || c.toNat == 11 || c.toNat == 12 || c.toNat == 13

/-- Match a literal (case-insensitively) against a prefix of the input,
returning the last consumed character and the remaining input. -/
def litMatch : List Char → Option Char → List Char → Option (Option Char × List Char)
  | [], prev, s => some (prev, s)
  | _ :: _, _, [] => none
  | l :: ls, _, c :: cs => if l.toLower == c.toLower then litMatch ls (some c) cs else none

/-- Consume one or more characters satisfying f, trying every split. -/
def chomp (f : Char → Bool) : Option Char → List Char → (Option Char → List Char → Bool) → Bool
  | _, [], _ => false
  | _, c :: cs, k => if f c then (k (some c) cs || chomp f (some c) cs k) else false

def atBoundary (prev : Option Char) (s : List Char) : Bool :=
  let a := match prev with | some c => isWordChar c | none => false
  let b := match s with | c :: _ => isWordChar c | [] => false
  a != b

/-- Backtracking matcher in continuation style; prev is the previously
consumed character (for word boundaries). -/
def matchP : Pat → Option Char → List Char → (Option Char → List Char → Bool) → Bool
  | .eps, prev, s, k => k prev s
  | .str lit, prev, s, k =>
    match litMatch lit.data prev s with
    | some (pr, rest) => k pr rest
    | none => false
  | .seq p q, prev, s, k => matchP p prev s (fun pr rest => matchP q pr rest k)
  | .alt p q, prev, s, k => matchP p prev s k || matchP q prev s k
  | .opt p, prev, s, k => matchP p prev s k || k prev s
  | .ws1, prev, s, k => chomp isSpaceChar prev s k
  | .digits1, prev, s, k => chomp Char.isDigit prev s k
  | .wb, prev, s, k => if atBoundary prev s then k prev s else false

def searchAux (p : Pat) : Option Char → List Char → Bool
  | prev, [] => matchP p prev [] (fun _ _ => true)
  | prev, c :: cs => matchP p prev (c :: cs) (fun _ _ => true) || searchAux p (some c) cs

/-- RegExp.prototype.test: the pattern matches at some position of s. -/
def reTest (p : Pat) (s : String) : Bool := searchAux p none s.data

/-- EXCLUSION_PATTERNS of server.js: deliverable name to the list of regexes
whose match vetoes classification into that deliverable. -/
def EXCLUSION_PATTERNS : List (String × List Pat) := [
  ("Blog posts", [
    .str "promo",
    .str "promot",
    pseq [.str "share", .opt (.alt (.str "d") (.str "s")), .ws1, .opt (pseq [.str "the", .ws1]), .str "blog"],
    pseq [.str "post", .opt (.alt (.str "ed") (.str "ing")), .ws1, .alt (.str "on") (.str "to"), .ws1,
          .alt (.str "social") (.alt (.str "twitter") (.alt (.str "linkedin") (pseq [.str "x", .wb])))],
    pseq [.str "social", .opt .ws1, .str "media"],
    .str "automat"]),
  ("Shorts", [
    .str "schedul",
    pseq [.str "post", .opt (.alt (.str "ed") (.str "ing")), .ws1, .alt (.str "on") (.str "to")],
    pseq [.str "share", .opt (.alt (.str "d") (.str "s"))],
    .str "social",
    .str "distribute",
    .str "upload",
    .str "promo"]),
  ("Tutorial videos", [
    .str "schedul",
    pseq [.str "post", .opt (.alt (.str "ed") (.str "ing")), .ws1, .alt (.str "on") (.str "to")],
    pseq [.str "share", .opt (.alt (.str "d") (.str "s"))],
    .str "social",
    .str "distribute",
    .str "promo"]),
  ("Newsletter issues", [
    .str "prep",
    pseq [.str "plan", .opt (.str "ning")],
    .str "draft",
    .str "outline",
    .str "idea"]),
  ("Metrics reports", [
    .str "expense",
    pseq [.str "status", .opt .ws1, .str "report"],
    pseq [.str "weekly", .opt .ws1, .str "report"],
    pseq [.str "progress", .opt .ws1, .str "report"]]),
  ("goose contributions", [
    .str "session",
    .str "meeting",
    pseq [.str "prep", .opt (.alt (.str "are") (.str "aring"))],
    .str "schedul",
    .str "demo",
    .str "review",
    .str "learn",
    pseq [.str "test", .opt (.str "ing"), .ws1, .str "goose"],
    pseq [.str "goose", .opt .ws1, .str "doc"],
    pseq [.str "doc", .opt (.alt (.str "s") (.str "umentation")), .opt .ws1, .opt (pseq [.str "for", .ws1]), .str "goose"]]),
  ("Docs", [
    .str "expense"])]

/-- CONFIRMATION_PATTERNS of server.js: deliverable name to the regexes one
of which must match before an ambiguous keyword or tag is accepted. -/
def CONFIRMATION_PATTERNS : List (String × List Pat) := [
  ("goose contributions", [
    pseq [.wb, .str "pr", .wb],
    pseq [.str "pull", .opt .ws1, .str "request"],
    pseq [.str "merg", .alt (.str "e") (.alt (.str "ed") (.str "ing"))],
    pseq [.str "fix", .opt (.alt (.str "ed") (.alt (.str "ing") (.str "es"))), .wb],
    pseq [.wb, .str "bug", .wb],
    .str "feature",
    .str "contribut",
    .str "implement",
    pseq [.str "ship", .opt (.alt (.str "ped") (.str "ping"))],
    pseq [.str "issue", .opt .ws1, .opt (.str "#"), .digits1],
    .str "resolv",
    pseq [.str "clos", .alt (.str "e") (.alt (.str "ed") (.str "ing"))]]),
  ("Blog posts", [
    pseq [.str "wr", .opt (.str "o"), .str "te"],
    pseq [.str "writ", .alt (.str "e") (.alt (.str "ing") (.str "ten"))],
    .str "publish",
    .str "draft",
    pseq [.wb, .str "blog", .opt .ws1, .alt (.str "post") (.str "article")],
    .str "author"]),
  ("Metrics reports", [
    .str "metrics",
    pseq [.str "community", .opt .ws1, .alt (.str "metrics") (.str "report")],
    .str "analytics",
    pseq [.str "discord", .opt .ws1, .alt (.str "metrics") (.str "stats")],
    pseq [.str "github", .opt .ws1, .alt (.str "metrics") (.str "stats")]]),
  ("Side projects", [
    pseq [.str "side", .opt .ws1, .str "project"],
    pseq [.wb, .str "repo", .wb],
    .str "repositor",
    .str "built",
    .str "building",
    pseq [.str "ship", .opt (.str "ped")]])]

/-- AGENTIC_PATTERNS of server.js, in source (JS object insertion) order. -/
def AGENTIC_PATTERNS : List (String × List Pat) := [
  ("MCP Apps", [pseq [.str "mcp", .opt .ws1, .str "app"]]),
  ("MCP Sampling", [pseq [.str "mcp", .opt .ws1, .str "sampl"], pseq [.wb, .str "sampling", .wb]]),
  ("Skills", [.str "skill", .str "taste"]),
  ("Elicitation", [.str "elicit"]),
  ("Recipes", [.str "recipe"]),
  ("Subagents", [.str "subagent", .str "sub-agent"]),
  ("Code Mode", [pseq [.str "code", .opt .ws1, .str "mode"]]),
  ("ACP", [pseq [.wb, .str "acp", .wb], pseq [.str "agent", .opt .ws1, .str "client", .opt .ws1, .str "protocol"]]),
  ("RPI", [pseq [.wb, .str "rpi", .wb]]),
  ("Ralph Wiggum Loop", [.str "ralph"]),
  ("Context Engineering", [pseq [.str "context", .opt .ws1, .str "engineer"], .str "agents.md", .str "goosehints"]),
  ("ai-rules", [.str "ai-rules", pseq [.str "ai", .opt .ws1, .str "rules"]]),
  ("Plans", [pseq [.wb, .str "plan", .opt (.str "s"), .wb], pseq [.str "planning", .opt .ws1, .str "mode"]]),
  ("Beads", [pseq [.wb, .str "bead", .opt (.str "s"), .wb]])]

def CONTENT_CATEGORIES : List String := ["Videos", "Blogs", "Livestreams"]

def CONTENT_DELIVERABLES : List String :=
  ["Tutorial videos", "Shorts", "Blog posts", "Vibe Code w/ goose streams"]

/-- detectAgenticPatterns: each pattern name is appended at most once, on the
first of its regexes that matches the task name. -/
def detectAgenticPatterns (taskName : String) : List String :=
  AGENTIC_PATTERNS.foldl
    (fun detected entry =>
      if entry.2.any (fun regex => reTest regex taskName) then detected ++ [entry.1] else detected)
    []

def isExcluded (taskName category : String) : Bool :=
  match EXCLUSION_PATTERNS.lookup category with
  | none => false
  | some patterns => patterns.any (fun pattern => reTest pattern taskName)

def hasConfirmation (taskName category : String) : Bool :=
  match CONFIRMATION_PATTERNS.lookup category with
  | none => true
  | some patterns => patterns.any (fun pattern => reTest pattern taskName)

/-- TAG_CATEGORY_MAP of goals.config.js: tag gid to (category, deliverable). -/
def TAG_CATEGORY_MAP : List (String × Mapping) := [
  ("1212903104247034", ⟨"Build", "Side projects"⟩),
  ("1208438924809387", ⟨"Build", "goose contributions"⟩),
  ("1212903104247031", ⟨"Build", "goose contributions"⟩),
  ("1208125190486880", ⟨"Videos", "Tutorial videos"⟩),
  ("1204316592156255", ⟨"Videos", "Tutorial videos"⟩),
  ("1204316592156190", ⟨"Videos", "Shorts"⟩),
  ("1204316592156209", ⟨"Blogs", "Blog posts"⟩),
  ("1205607058770995", ⟨"Livestreams", "Vibe Code w/ goose streams"⟩),
  ("1212892322315514", ⟨"Public Speaking", "CFPs (submitted or accepted)"⟩),
  ("1204316592156237", ⟨"Public Speaking", "Talks delivered"⟩),
  ("1204316592156228", ⟨"Public Speaking", "Podcast recordings"⟩),
  ("1206441534238594", ⟨"Public Speaking", "Talks delivered"⟩),
  ("1200006700367828", ⟨"Community", "Newsletter issues"⟩),
  ("1204364638447788", ⟨"Community", "Community"⟩),
  ("1204316592156189", ⟨"Documentation", "Docs"⟩),
  ("1204463482160284", ⟨"Documentation", "Docs"⟩),
  ("1207924330531310", ⟨"Documentation", "Docs"⟩)]

/-- TAG_NAME_MAP of goals.config.js: lowercase tag name to mapping. -/
def TAG_NAME_MAP : List (String × Mapping) := [
  ("side project", ⟨"Build", "Side projects"⟩),
  ("goose", ⟨"Build", "goose contributions"⟩),
  ("goose contribution", ⟨"Build", "goose contributions"⟩),
  ("video tutorial", ⟨"Videos", "Tutorial videos"⟩),
  ("tutorial", ⟨"Videos", "Tutorial videos"⟩),
  ("video", ⟨"Videos", "Shorts"⟩),
  ("blog", ⟨"Blogs", "Blog posts"⟩),
  ("livestream", ⟨"Livestreams", "Vibe Code w/ goose streams"⟩),
  ("cfp", ⟨"Public Speaking", "CFPs (submitted or accepted)"⟩),
  ("public speaking", ⟨"Public Speaking", "Talks delivered"⟩),
  ("podcast", ⟨"Public Speaking", "Podcast recordings"⟩),
  ("workshop", ⟨"Public Speaking", "Talks delivered"⟩),
  ("newsletter", ⟨"Community", "Newsletter issues"⟩),
  ("community", ⟨"Community", "Community"⟩),
  ("documentation", ⟨"Documentation", "Docs"⟩),
  ("guide", ⟨"Documentation", "Docs"⟩),
  ("internal devrel", ⟨"Documentation", "Docs"⟩)]

/-- Phase 0 of categorizeTask: explicit priority tags, checked first. -/
def phase0 (tags : List Tag) : Option Mapping :=
  if tags.any (fun t => t.gid == some "1212903104247034" || t.name.map jsToLower == some "side project") then
    some ⟨"Build", "Side projects"⟩
  else if tags.any (fun t => t.gid == some "1212892322315514" || t.name.map jsToLower == some "cfp") then
    some ⟨"Public Speaking", "CFPs (submitted or accepted)"⟩
  else if tags.any (fun t => t.gid == some "1212903104247031" || t.name.map jsToLower == some "goose contribution") then
    some ⟨"Build", "goose contributions"⟩
  else
    none

-- The under-60-seconds indicator regex tested against the lowercased name.
def underSixtyPat : Pat := pseq [.str "under", .opt .ws1, .alt (.str "60") (pseq [.str "1", .opt .ws1, .str "min"])]

-- The goose-docs keyword regex of phase 3 (same shape as the exclusion one).
def gooseDocPat : Pat :=
  pseq [.str "doc", .opt (.alt (.str "s") (.str "umentation")), .opt .ws1, .opt (pseq [.str "for", .ws1]), .str "goose"]

/-- One iteration of the phase-1 loop of categorizeTask (gid-keyed tags with
validation); none models the JS continue. -/
def phase1Step (taskName taskNameOriginal : String) (tags : List Tag) (tag : Tag) : Option Mapping :=
  match tag.gid.bind (fun g => TAG_CATEGORY_MAP.lookup g) with
  | none => none
  | some mapping =>
    if tag.gid == some "1212903104247034" || tag.gid == some "1212892322315514" || tag.gid == some "1212903104247031" then
      none
    else if tag.gid == some "1204316592156190" then
      let hasTutorialTag := tags.any (fun t => t.gid == some "1208125190486880" || t.gid == some "1204316592156255")
      if (containsStr taskName "short" || containsStr taskName "[shorts]" || containsStr taskName "quick tip" ||
          reTest underSixtyPat taskName) &&
         !containsStr taskName "shortcut" && !isExcluded taskNameOriginal "Shorts" then
        some ⟨"Videos", "Shorts"⟩
      else if (hasTutorialTag || containsStr taskName "tutorial" || containsStr taskName "plug & play" ||
               containsStr taskName "plug and play" || containsStr taskName "flight school") &&
              !isExcluded taskNameOriginal "Tutorial videos" then
        some ⟨"Videos", "Tutorial videos"⟩
      else if !isExcluded taskNameOriginal "Shorts" then
        some ⟨"Videos", "Shorts"⟩
      else
        none
    else if tag.gid == some "1208125190486880" || tag.gid == some "1204316592156255" then
      let hasVideoTag := tags.any (fun t => t.gid == some "1204316592156190")
      let hasVideoKeyword := containsStr taskName "video" || containsStr taskName "filmed" ||
                             containsStr taskName "recorded" || containsStr taskName "youtube"
      if hasVideoTag || hasVideoKeyword then
        some ⟨"Videos", "Tutorial videos"⟩
      else
        some ⟨"Documentation", "Docs"⟩
    else if tag.gid == some "1212903104247031" then
      some ⟨"Build", "goose contributions"⟩
    else if tag.gid == some "1208438924809387" then
      if isExcluded taskNameOriginal "goose contributions" then
        none
      else if hasConfirmation taskNameOriginal "goose contributions" then
        some ⟨"Build", "goose contributions"⟩
      else
        none
    else if !isExcluded taskNameOriginal mapping.deliverable then
      some mapping
    else
      none

/-- One iteration of the phase-2 loop for a tag whose name is present. -/
def phase2Step (taskName taskNameOriginal : String) (tagNameLower : String) : Option Mapping :=
  match TAG_NAME_MAP.lookup tagNameLower with
  | none => none
  | some mapping =>
    if tagNameLower == "goose contribution" then
      some ⟨"Build", "goose contributions"⟩
    else if tagNameLower == "goose" then
      if isExcluded taskNameOriginal "goose contributions" then
        none
      else if hasConfirmation taskNameOriginal "goose contributions" then
        some mapping
      else
        none
    else if !isExcluded taskNameOriginal mapping.deliverable then
      some mapping
    else
      none

/-- Phase 2 of categorizeTask: tag-name fallback. The JS loop evaluates
tag.name.toLowerCase() for each tag it reaches, which throws when the tag
carries no name; the throw is modelled by .error. -/
def phase2 (taskName taskNameOriginal : String) : List Tag → Except Unit (Option Mapping)
  | [] => .ok none
  | tag :: rest =>
    match tag.name with
    | none => .error ()
    | some nm =>
      match phase2Step taskName taskNameOriginal (jsToLower nm) with
      | some mapping => .ok (some mapping)
      | none => phase2 taskName taskNameOriginal rest

-- Named sub-conditions of the phase-3 keyword cascade.
def shortsKeywordCond (taskName taskNameOriginal : String) : Bool :=
  (containsStr taskName "[shorts]" || containsStr taskName "quick tip" ||
   (containsStr taskName "short" && !containsStr taskName "shortcut")) &&
  !isExcluded taskNameOriginal "Shorts"

def tutorialVideoKeyword (taskName : String) : Bool :=
  containsStr taskName "tutorial" || containsStr taskName "plug & play" ||
  containsStr taskName "plug and play" || containsStr taskName "flight school"

def writtenTutorialKeyword (taskName : String) : Bool :=
  containsStr taskName "tutorial" || containsStr taskName "plug & play" ||
  containsStr taskName "plug and play"

def hasVideoIndicatorFn (taskName : String) : Bool :=
  containsStr taskName "video" || containsStr taskName "filmed" ||
  containsStr taskName "recorded" || containsStr taskName "youtube" ||
  (containsStr taskName "published" && !containsStr taskName "doc" && !containsStr taskName "blog")

/-- Phase 3 of categorizeTask: pure keyword cascade over the task name. -/
def phase3 (taskName taskNameOriginal : String) : Option Mapping :=
  if shortsKeywordCond taskName taskNameOriginal then
    some ⟨"Videos", "Shorts"⟩
  else if tutorialVideoKeyword taskName && hasVideoIndicatorFn taskName &&
          !isExcluded taskNameOriginal "Tutorial videos" then
    some ⟨"Videos", "Tutorial videos"⟩
  else if writtenTutorialKeyword taskName && !hasVideoIndicatorFn taskName &&
          !isExcluded taskNameOriginal "Docs" then
    some ⟨"Documentation", "Docs"⟩
  else if containsStr taskName "livestream" || containsStr taskName "vibe code" ||
          (containsStr taskName "stream" && containsStr taskName "goose") then
    some ⟨"Livestreams", "Vibe Code w/ goose streams"⟩
  else if (containsStr taskName "blog" || containsStr taskName "article") &&
          !isExcluded taskNameOriginal "Blog posts" && hasConfirmation taskNameOriginal "Blog posts" then
    some ⟨"Blogs", "Blog posts"⟩
  else if containsStr taskName "cfp" ||
          (containsStr taskName "submit" && (containsStr taskName "conference" || containsStr taskName "talk")) then
    some ⟨"Public Speaking", "CFPs (submitted or accepted)"⟩
  else if containsStr taskName "podcast" || containsStr taskName "guest recording" ||
          (containsStr taskName "recording" && containsStr taskName "guest") then
    some ⟨"Public Speaking", "Podcast recordings"⟩
  else if containsStr taskName "keynote" || containsStr taskName "workshop" ||
          (containsStr taskName "talk" &&
           (containsStr taskName "deliver" || containsStr taskName "gave" || containsStr taskName "present")) then
    some ⟨"Public Speaking", "Talks delivered"⟩
  else if containsStr taskName "newsletter" && !isExcluded taskNameOriginal "Newsletter issues" then
    some ⟨"Community", "Newsletter issues"⟩
  else if containsStr taskName "spotlight" then
    some ⟨"Community", "Spotlights"⟩
  else if (containsStr taskName "metrics" || containsStr taskName "report") &&
          !isExcluded taskNameOriginal "Metrics reports" && hasConfirmation taskNameOriginal "Metrics reports" then
    some ⟨"Community", "Metrics reports"⟩
  else if containsStr taskName "goose" && !isExcluded taskNameOriginal "goose contributions" &&
          hasConfirmation taskNameOriginal "goose contributions" then
    some ⟨"Build", "goose contributions"⟩
  else if (containsStr taskName "side project" || containsStr taskName "sideproject") &&
          hasConfirmation taskNameOriginal "Side projects" then
    some ⟨"Build", "Side projects"⟩
  else if (containsStr taskName "goose doc" || containsStr taskName "goose-doc" ||
           reTest gooseDocPat taskNameOriginal ||
           (containsStr taskName "goose" && containsStr taskName "documentation")) &&
          !isExcluded taskNameOriginal "Docs" then
    some ⟨"Documentation", "Docs"⟩
  else if (containsStr taskName "documentation" ||
           (containsStr taskName "doc" &&
            (containsStr taskName "wrote" || containsStr taskName "update" || containsStr taskName "add"))) &&
          !isExcluded taskNameOriginal "Docs" then
    some ⟨"Documentation", "Docs"⟩
  else
    none

/-- categorizeTask of server.js. Result .ok (some m) is a classification,
.ok none is the JS null, and .error is the TypeError thrown by the phase-2
loop on a tag without a name. -/
def categorizeTask (task : Task) : Except Unit (Option Mapping) :=
  let taskName := jsToLower task.name
  let taskNameOriginal := task.name
  match phase0 task.tags with
  | some m => .ok (some m)
  | none =>
    match task.tags.findSome? (phase1Step taskName taskNameOriginal task.tags) with
    | some m => .ok (some m)
    | none =>
      match phase2 taskName taskNameOriginal task.tags with
      | .error e => .error e
      | .ok (some m) => .ok (some m)
      | .ok none => .ok (phase3 taskName taskNameOriginal)

-- ============================================
-- EXCLUDED CONTRIBUTORS and the search-result filter
-- ============================================

def EXCLUDED_ASSIGNEES : List String := ["Anthony Giuliano", "Eva Sasson", "Adewale Abati"]

/-- The predicate of the assignee filter in searchCompletedTasks: a task is
kept when it has no assignee name (the JS falsy check, which also covers an
empty-string name) or when the name is not on the exclusion list. -/
def assigneeAllowed (task : Task) : Bool :=
  match task.assignee with
  | none => true
  | some n => if n == "" then true else !(EXCLUDED_ASSIGNEES.contains n)

/-- The assignee filter applied by searchCompletedTasks (and
searchOpenTasksByTag) to the fetched task list. -/
def filterExcludedAssignees (tasks : List Task) : List Task :=
  tasks.filter assigneeAllowed

-- ============================================
-- PROGRESS AGGREGATION (calculateProgress)
-- ============================================

/-- The per-task display record pushed into a deliverable's task list; the
sourceDeliverable field is the extra field spread onto copies pushed into
agenticPatternsTasks. -/
structure TaskData where
  gid : String
  name : String
  completed_at : Option String
  assignee : String
  collaborators : List String
  tags : List (Option String)
  agenticPatterns : List String
  sourceDeliverable : Option String := none
deriving DecidableEq

/-- Collaborators of a task: follower names that are present, non-empty,
different from the assignee name and not globally excluded. -/
def collaboratorsOf (t : Task) : List String :=
  t.followers.filterMap (fun fname =>
    match fname with
    | none => none
    | some n =>
      if n != "" && t.assignee != some n && !(EXCLUDED_ASSIGNEES.contains n) then some n else none)

def taskDataOf (t : Task) : TaskData :=
  { gid := t.gid
    name := t.name
    completed_at := t.completed_at
    assignee := match t.assignee with | none => "Unassigned" | some n => if n == "" then "Unassigned" else n
    collaborators := collaboratorsOf t
    tags := t.tags.map (fun tg => tg.name)
    agenticPatterns := detectAgenticPatterns t.name
    sourceDeliverable := none }

structure DeliverableProgress where
  completed : Nat
  tasks : List TaskData
  patternsFound : Option (List String) := none
deriving DecidableEq

/-- A goal specification: category name to deliverable name to target, where
none is the JS null (tracked as needed, no numeric target). -/
abbrev Goals := List (String × List (String × Option Nat))

abbrev Progress := List (String × List (String × DeliverableProgress))

def initProgress (goals : Goals) : Progress :=
  goals.map (fun cg => (cg.1, cg.2.map (fun dg => (dg.1, ⟨0, [], none⟩))))

def lookup2 (p : Progress) (c d : String) : Option DeliverableProgress :=
  (p.lookup c).bind (fun ds => ds.lookup d)

def glookup2 (goals : Goals) (c d : String) : Option (Option Nat) :=
  (goals.lookup c).bind (fun ds => ds.lookup d)

def mapSlots (f : String → String → DeliverableProgress → DeliverableProgress) (p : Progress) : Progress :=
  p.map (fun cg => (cg.1, cg.2.map (fun dg => (dg.1, f cg.1 dg.1 dg.2))))

/-- progress[c][d].completed++ followed by progress[c][d].tasks.push(td). -/
def updateSlot (p : Progress) (c d : String) (td : TaskData) : Progress :=
  mapSlots (fun c1 d1 e =>
    if c1 == c && d1 == d then { e with completed := e.completed + 1, tasks := e.tasks ++ [td] } else e) p

/-- Adding a list of pattern names to the insertion-ordered JS Set. -/
def insertPats (found : List String) (patterns : List String) : List String :=
  patterns.foldl (fun acc p => if acc.contains p then acc else acc ++ [p]) found

/-- The per-task loop of calculateProgress; the accumulators are the progress
object, the agenticPatternsFound set (as its insertion-ordered element list)
and agenticPatternsTasks. A task whose categorization throws propagates the
exception. -/
def calcLoop : List Task → Progress → List String → List TaskData →
    Except Unit (Progress × List String × List TaskData)
  | [], progress, patternsFound, patternTasks => .ok (progress, patternsFound, patternTasks)
  | task :: rest, progress, patternsFound, patternTasks =>
    match categorizeTask task with
    | .error e => .error e
    | .ok none => calcLoop rest progress patternsFound patternTasks
    | .ok (some mapping) =>
      if (lookup2 progress mapping.category mapping.deliverable).isSome then
        if CONTENT_DELIVERABLES.contains mapping.deliverable &&
           decide (0 < (detectAgenticPatterns task.name).length) then
          calcLoop rest (updateSlot progress mapping.category mapping.deliverable (taskDataOf task))
            (insertPats patternsFound (detectAgenticPatterns task.name))
            (patternTasks ++ [{ taskDataOf task with sourceDeliverable := some mapping.deliverable }])
        else
          calcLoop rest (updateSlot progress mapping.category mapping.deliverable (taskDataOf task))
            patternsFound patternTasks
      else calcLoop rest progress patternsFound patternTasks

/-- The final write of calculateProgress into the Build / Agentic patterns
owned slot: completed becomes the number of distinct detected patterns, the
task list becomes the contributing content tasks, and patternsFound is set. -/
def overrideAPO (p : Progress) (patternsFound : List String) (patternTasks : List TaskData) : Progress :=
  mapSlots (fun c d e =>
    if c == "Build" && d == "Agentic patterns owned" then
      { completed := patternsFound.length, tasks := patternTasks, patternsFound := some patternsFound }
    else e) p

/-- calculateProgress of server.js. -/
def calculateProgress (tasks : List Task) (goals : Goals) : Except Unit Progress :=
  match calcLoop tasks (initProgress goals) [] [] with
  | .error e => .error e
  | .ok (progress, patternsFound, patternTasks) =>
    .ok (if (lookup2 progress "Build" "Agentic patterns owned").isSome
         then overrideAPO progress patternsFound patternTasks
         else progress)

/-- QUARTERLY_GOALS of goals.config.js (2026-Q1). -/
def QUARTERLY_GOALS : List (String × Goals) := [
  ("2026-Q1", [
    ("Build", [("Side projects", some 4), ("goose contributions", some 4), ("Agentic patterns owned", some 4)]),
    ("Videos", [("Tutorial videos", some 4), ("Shorts", some 6)]),
    ("Blogs", [("Blog posts", some 10)]),
    ("Livestreams", [("Vibe Code w/ goose streams", some 6)]),
    ("Public Speaking", [("CFPs (submitted or accepted)", some 6), ("Talks delivered", some 4), ("Podcast recordings", some 4)]),
    ("Community", [("Newsletter issues", some 3), ("Spotlights", some 3), ("Metrics reports", some 3)]),
    ("Documentation", [("Docs", none)])])]

-- ============================================
-- CACHING SYSTEM
-- ============================================

structure QuarterCfg where
  name : String
  startDate : Int
  endDate : Int
  months : List String
deriving DecidableEq

/-- QUARTER_CONFIG of goals.config.js; the ISO date strings are parsed by
new Date(...) to UTC midnight, given here as Unix epoch milliseconds. -/
def QUARTER_CONFIG : List (String × QuarterCfg) := [
  ("2026-Q1", ⟨"Q1 2026", 1767139200000, 1775001600000, ["January", "February", "March"]⟩),
  ("2026-Q2", ⟨"Q2 2026", 1774915200000, 1782864000000, ["April", "May", "June"]⟩),
  ("2026-Q3", ⟨"Q3 2026", 1782777600000, 1790812800000, ["July", "August", "September"]⟩),
  ("2026-Q4", ⟨"Q4 2026", 1790726400000, 1798761600000, ["October", "November", "December"]⟩)]

def CURRENT_QUARTER_TTL : Int := 5 * 60 * 1000

def CURRENT_MONTH_TTL : Int := 2 * 60 * 1000

/-- isQuarterPast: the configured end date is strictly before now; an
unconfigured quarter is never past. -/
def isQuarterPast (quarterId : String) (now : Int) : Bool :=
  match QUARTER_CONFIG.lookup quarterId with
  | none => false
  | some config => config.endDate < now

structure CacheEntry (α : Type) where
  data : α
  timestamp : Int
  isPast : Bool
deriving DecidableEq

def getCacheKey (quarterId : String) : String := quarterId

def isCacheValid {α : Type} (entry : Option (CacheEntry α)) (quarterId : String) (now : Int) : Bool :=
  match entry with
  | none => false
  | some e =>
    if isQuarterPast quarterId now && e.isPast then true
    else now - e.timestamp < CURRENT_QUARTER_TTL

/-- JS Map.prototype.set: replace in place if the key is present, else append. -/
def mapSet {α : Type} (m : List (String × α)) (k : String) (v : α) : List (String × α) :=
  if m.any (fun kv => kv.1 == k) then m.map (fun kv => if kv.1 == k then (k, v) else kv)
  else m ++ [(k, v)]

def mapDelete {α : Type} (m : List (String × α)) (k : String) : List (String × α) :=
  m.filter (fun kv => !(kv.1 == k))

def setCache {α : Type} (st : List (String × CacheEntry α)) (quarterId : String) (data : α)
    (now : Int) : List (String × CacheEntry α) :=
  mapSet st (getCacheKey quarterId) ⟨data, now, isQuarterPast quarterId now⟩

/-- getCache: returns the cached payload when the entry validates, deletes an
invalid entry; the returned state is the cache map after the call. -/
def getCache {α : Type} (st : List (String × CacheEntry α)) (quarterId : String) (now : Int) :
    Option α × List (String × CacheEntry α) :=
  let key := getCacheKey quarterId
  let entry := st.lookup key
  if isCacheValid entry quarterId now then (entry.map (fun e => e.data), st)
  else
    match entry with
    | some _ => (none, mapDelete st key)
    | none => (none, st)

-- ============================================
-- Derived measures used to state the claims
-- ============================================

deriving instance DecidableEq for Except

/-- The task classifies (without fault) exactly to (c, d). -/
def classTo (c d : String) (t : Task) : Bool :=
  decide (categorizeTask t = .ok (some ⟨c, d⟩))

/-- Sum of the completed counts over every slot of a progress object. -/
def sumCompleted (p : Progress) : Nat :=
  (p.map (fun cg => (cg.2.map (fun dg => dg.2.completed)).sum)).sum

/-- Sum of the completed counts over every slot except Build / Agentic
patterns owned. -/
def sumCompletedExceptPatterns (p : Progress) : Nat :=
  (p.map (fun cg =>
    ((cg.2.filter (fun dg => !(cg.1 == "Build" && dg.1 == "Agentic patterns owned"))).map
      (fun dg => dg.2.completed)).sum)).sum

/-- The task classifies to a pair declared in the goal spec. -/
def classifiedDeclared (goals : Goals) (t : Task) : Bool :=
  match categorizeTask t with
  | .ok (some m) => (glookup2 goals m.category m.deliverable).isSome
  | _ => false

/-- The task classifies to a declared pair other than Build / Agentic
patterns owned. -/
def classifiedDeclaredExceptPatterns (goals : Goals) (t : Task) : Bool :=
  match categorizeTask t with
  | .ok (some m) =>
    (glookup2 goals m.category m.deliverable).isSome &&
    !(m.category == "Build" && m.deliverable == "Agentic patterns owned")
  | _ => false

/-- Well-formedness of a JS-object goal spec: no duplicate category keys and
no duplicate deliverable keys within a category. -/
def goalsWF (goals : Goals) : Prop :=
  (goals.map Prod.fst).Nodup ∧ ∀ cg ∈ goals, (cg.2.map Prod.fst).Nodup

def progWF (p : Progress) : Prop :=
  (p.map Prod.fst).Nodup ∧ ∀ cg ∈ p, (cg.2.map Prod.fst).Nodup

/-- The slot-availability test a task must pass, relative to a slot
predicate, for its detected patterns to enter the patterns set. -/
def patQual (slot : String → String → Bool) (t : Task) : Bool :=
  match categorizeTask t with
  | .ok (some m) =>
    slot m.category m.deliverable && CONTENT_DELIVERABLES.contains m.deliverable &&
    decide (0 < (detectAgenticPatterns t.name).length)
  | _ => false

/-- Closed form of the patterns-set accumulation of the task loop. -/
def patFold (q : Task → Bool) : List String → List Task → List String
  | acc, [] => acc
  | acc, t :: rest => patFold q (if q t then insertPats acc (detectAgenticPatterns t.name) else acc) rest

def slotOf (p : Progress) (c d : String) : Bool := (lookup2 p c d).isSome

/-- The per-slot effect of the task loop on an initial slot value: the count
of tasks classifying exactly to the slot is added and their display records
appended, in input order. -/
def slotAdd (tasks : List Task) (c d : String) (e : DeliverableProgress) : DeliverableProgress :=
  { e with completed := e.completed + (tasks.filter (classTo c d)).length,
           tasks := e.tasks ++ (tasks.filter (classTo c d)).map taskDataOf }

/-- Sum, over the declared pairs other than Build / Agentic patterns owned,
of the number of tasks classifying to the pair. -/
def declaredCountExcept (tasks : List Task) (goals : Goals) : Nat :=
  (goals.map (fun cg =>
    ((cg.2.filter (fun dg => !(cg.1 == "Build" && dg.1 == "Agentic patterns owned"))).map
      (fun dg => (tasks.filter (classTo cg.1 dg.1)).length)).sum)).sum

/-- The three priority-tag gids of phase 0. -/
def hasPriorityGid (tags : List Tag) : Bool :=
  tags.any (fun t =>
    t.gid == some "1212903104247034" || t.gid == some "1212892322315514" || t.gid == some "1212903104247031")

-- ============================================
-- Concrete example tasks used by the claim instances
-- ============================================

def gooseTag : Tag := ⟨some "1208438924809387", some "goose"⟩

def prepTask : Task :=
  { gid := "t1", name := "prep meeting notes",
    tags := [⟨some "1212903104247034", some "side project"⟩],
    assignee := none, followers := [], completed_at := none }

def badTagTask : Task :=
  { gid := "t2", name := "hello world", tags := [⟨some "999", none⟩],
    assignee := none, followers := [], completed_at := none }

def scheduleShortsTask : Task :=
  { gid := "t3", name := "Schedule shorts for next week", tags := [],
    assignee := none, followers := [], completed_at := none }

def tutorialShareTask : Task :=
  { gid := "t4", name := "share tutorial video",
    tags := [⟨some "1204316592156255", some "tutorial"⟩],
    assignee := none, followers := [], completed_at := none }

def gooseSightingTask : Task :=
  { gid := "t5", name := "goose sighting at the park", tags := [gooseTag],
    assignee := none, followers := [], completed_at := none }

def gooseShortTask : Task :=
  { gid := "t6", name := "goose short clip", tags := [gooseTag],
    assignee := none, followers := [], completed_at := none }

def wroteTutorialTask : Task :=
  { gid := "t7", name := "Wrote a tutorial on skills", tags := [],
    assignee := none, followers := [], completed_at := none }

def recordedTutorialTask : Task :=
  { gid := "t8", name := "Recorded a tutorial on skills", tags := [],
    assignee := none, followers := [], completed_at := none }

def shortTutorialTask : Task :=
  { gid := "t9", name := "short tutorial video", tags := [],
    assignee := none, followers := [], completed_at := none }

def excludedAssigneeTask : Task :=
  { gid := "t10", name := "Wrote a blog post about skills", tags := [],
    assignee := some "Eva Sasson", followers := [], completed_at := none }

def unassignedBlogTask : Task :=
  { gid := "t11", name := "Wrote a blog post about skills", tags := [],
    assignee := none, followers := [], completed_at := none }

def goalsCX : Goals :=
  [("Build", [("Agentic patterns owned", none)]), ("Blogs", [("Blog posts", some 10)])]

def recipeBlogTask : Task :=
  { gid := "t12", name := "Wrote a blog article about recipes", tags := [],
    assignee := none, followers := [], completed_at := none }

/-- The progress object produced by calculateProgress on [unassignedBlogTask]
against goalsCX. -/
def progCX : Progress :=
  [("Build", [("Agentic patterns owned",
      ⟨1, [{ taskDataOf unassignedBlogTask with sourceDeliverable := some "Blog posts" }],
       some ["Skills"]⟩)]),
   ("Blogs", [("Blog posts", ⟨1, [taskDataOf unassignedBlogTask], none⟩)])]

/-- The progress object produced by calculateProgress on
[unassignedBlogTask, recipeBlogTask] against goalsCX. -/
def progCX2 : Progress :=
  [("Build", [("Agentic patterns owned",
      ⟨2, [{ taskDataOf unassignedBlogTask with sourceDeliverable := some "Blog posts" },
           { taskDataOf recipeBlogTask with sourceDeliverable := some "Blog posts" }],
       some ["Skills", "Recipes"]⟩)]),
   ("Blogs", [("Blog posts", ⟨2, [taskDataOf unassignedBlogTask, taskDataOf recipeBlogTask], none⟩)])]

/-- The progress object produced by calculateProgress on the reversed list
[recipeBlogTask, unassignedBlogTask] against goalsCX. -/
def progCX2P : Progress :=
  [("Build", [("Agentic patterns owned",
      ⟨2, [{ taskDataOf recipeBlogTask with sourceDeliverable := some "Blog posts" },
           { taskDataOf unassignedBlogTask with sourceDeliverable := some "Blog posts" }],
       some ["Recipes", "Skills"]⟩)]),
   ("Blogs", [("Blog posts", ⟨2, [taskDataOf recipeBlogTask, taskDataOf unassignedBlogTask], none⟩)])]

/-- The Build / Agentic patterns owned slot of progCX2. -/
def eCX2 : DeliverableProgress :=
  ⟨2, [{ taskDataOf unassignedBlogTask with sourceDeliverable := some "Blog posts" },
       { taskDataOf recipeBlogTask with sourceDeliverable := some "Blog posts" }],
   some ["Skills", "Recipes"]⟩

/-- The Build / Agentic patterns owned slot of progCX2P. -/
def eCX2P : DeliverableProgress :=
  ⟨2, [{ taskDataOf recipeBlogTask with sourceDeliverable := some "Blog posts" },
       { taskDataOf unassignedBlogTask with sourceDeliverable := some "Blog posts" }],
   some ["Recipes", "Skills"]⟩

-- ============================================
-- Basic lemmas about the classifier
-- ============================================

theorem hasPriorityGid_false_of_phase0_none (tags : List Tag) (h : phase0 tags = none) :
    hasPriorityGid tags = false := by
  unfold phase0 at h
  split_ifs at h with h1 h2 h3
  unfold hasPriorityGid
  rw [Bool.eq_false_iff]
  intro hc
  rw [List.any_eq_true] at hc
  obtain ⟨tg, htg, hg⟩ := hc
  rw [Bool.or_eq_true, Bool.or_eq_true] at hg
  rcases hg with (hg | hg) | hg
  · exact h1 (by simp only [List.any_eq_true, Bool.or_eq_true]; exact ⟨tg, htg, Or.inl hg⟩)
  · exact h2 (by simp only [List.any_eq_true, Bool.or_eq_true]; exact ⟨tg, htg, Or.inl hg⟩)
  · exact h3 (by simp only [List.any_eq_true, Bool.or_eq_true]; exact ⟨tg, htg, Or.inl hg⟩)

theorem phase0_isSome_of_priority (tags : List Tag) (h : hasPriorityGid tags = true) :
    (phase0 tags).isSome = true := by
  cases hp : phase0 tags with
  | some m => rfl
  | none => rw [hasPriorityGid_false_of_phase0_none tags hp] at h; cases h

theorem categorizeTask_phase0 (t : Task) (m : Mapping) (hm : phase0 t.tags = some m) :
    categorizeTask t = .ok (some m) := by
  unfold categorizeTask
  simp [hm]

theorem categorizeTask_no_tags (t : Task) (h : t.tags = []) :
    categorizeTask t = .ok (phase3 (jsToLower t.name) t.name) := by
  unfold categorizeTask
  simp [h, phase0, phase2]

/-- Inversion of the phase-3 keyword cascade: every branch returning a
deliverable that owns an exclusion set is guarded by that set, and the only
branch producing the goose-contributions deliverable requires a matching
confirmation regex. -/
theorem phase3_inv (nl no : String) (m : Mapping) (h : phase3 nl no = some m) :
    ((EXCLUSION_PATTERNS.lookup m.deliverable).isSome = true → isExcluded no m.deliverable = false) ∧
    (m = ⟨"Build", "goose contributions"⟩ → hasConfirmation no "goose contributions" = true) := by
  unfold phase3 at h
  by_cases h1 : shortsKeywordCond nl no = true
  · rw [if_pos h1] at h
    cases h
    unfold shortsKeywordCond at h1
    rw [Bool.and_eq_true] at h1
    exact ⟨fun _ => by simpa using h1.2, fun hm => absurd hm (by decide)⟩
  rw [if_neg h1] at h
  by_cases h2 : (tutorialVideoKeyword nl && hasVideoIndicatorFn nl && !isExcluded no "Tutorial videos") = true
  · rw [if_pos h2] at h
    cases h
    rw [Bool.and_eq_true] at h2
    exact ⟨fun _ => by simpa using h2.2, fun hm => absurd hm (by decide)⟩
  rw [if_neg h2] at h
  by_cases h3 : (writtenTutorialKeyword nl && !hasVideoIndicatorFn nl && !isExcluded no "Docs") = true
  · rw [if_pos h3] at h
    cases h
    rw [Bool.and_eq_true] at h3
    exact ⟨fun _ => by simpa using h3.2, fun hm => absurd hm (by decide)⟩
  rw [if_neg h3] at h
  by_cases h4 : (containsStr nl "livestream" || containsStr nl "vibe code" ||
      (containsStr nl "stream" && containsStr nl "goose")) = true
  · rw [if_pos h4] at h
    cases h
    exact ⟨fun hx => absurd hx (by decide), fun hm => absurd hm (by decide)⟩
  rw [if_neg h4] at h
  by_cases h5 : ((containsStr nl "blog" || containsStr nl "article") &&
      !isExcluded no "Blog posts" && hasConfirmation no "Blog posts") = true
  · rw [if_pos h5] at h
    cases h
    rw [Bool.and_eq_true, Bool.and_eq_true] at h5
    exact ⟨fun _ => by simpa using h5.1.2, fun hm => absurd hm (by decide)⟩
  rw [if_neg h5] at h
  by_cases h6 : (containsStr nl "cfp" ||
      (containsStr nl "submit" && (containsStr nl "conference" || containsStr nl "talk"))) = true
  · rw [if_pos h6] at h
    cases h
    exact ⟨fun hx => absurd hx (by decide), fun hm => absurd hm (by decide)⟩
  rw [if_neg h6] at h
  by_cases h7 : (containsStr nl "podcast" || containsStr nl "guest recording" ||
      (containsStr nl "recording" && containsStr nl "guest")) = true
  · rw [if_pos h7] at h
    cases h
    exact ⟨fun hx => absurd hx (by decide), fun hm => absurd hm (by decide)⟩
  rw [if_neg h7] at h
  by_cases h8 : (containsStr nl "keynote" || containsStr nl "workshop" ||
      (containsStr nl "talk" &&
       (containsStr nl "deliver" || containsStr nl "gave" || containsStr nl "present"))) = true
  · rw [if_pos h8] at h
    cases h
    exact ⟨fun hx => absurd hx (by decide), fun hm => absurd hm (by decide)⟩
  rw [if_neg h8] at h
  by_cases h9 : (containsStr nl "newsletter" && !isExcluded no "Newsletter issues") = true
  · rw [if_pos h9] at h
    cases h
    rw [Bool.and_eq_true] at h9
    exact ⟨fun _ => by simpa using h9.2, fun hm => absurd hm (by decide)⟩
  rw [if_neg h9] at h
  by_cases h10 : containsStr nl "spotlight" = true
  · rw [if_pos h10] at h
    cases h
    exact ⟨fun hx => absurd hx (by decide), fun hm => absurd hm (by decide)⟩
  rw [if_neg h10] at h
  by_cases h11 : ((containsStr nl "metrics" || containsStr nl "report") &&
      !isExcluded no "Metrics reports" && hasConfirmation no "Metrics reports") = true
  · rw [if_pos h11] at h
    cases h
    rw [Bool.and_eq_true, Bool.and_eq_true] at h11
    exact ⟨fun _ => by simpa using h11.1.2, fun hm => absurd hm (by decide)⟩
  rw [if_neg h11] at h
  by_cases h12 : (containsStr nl "goose" && !isExcluded no "goose contributions" &&
      hasConfirmation no "goose contributions") = true
  · rw [if_pos h12] at h
    cases h
    rw [Bool.and_eq_true, Bool.and_eq_true] at h12
    exact ⟨fun _ => by simpa using h12.1.2, fun _ => h12.2⟩
  rw [if_neg h12] at h
  by_cases h13 : ((containsStr nl "side project" || containsStr nl "sideproject") &&
      hasConfirmation no "Side projects") = true
  · rw [if_pos h13] at h
    cases h
    exact ⟨fun hx => absurd hx (by decide), fun hm => absurd hm (by decide)⟩
  rw [if_neg h13] at h
  by_cases h14 : ((containsStr nl "goose doc" || containsStr nl "goose-doc" || reTest gooseDocPat no ||
      (containsStr nl "goose" && containsStr nl "documentation")) && !isExcluded no "Docs") = true
  · rw [if_pos h14] at h
    cases h
    rw [Bool.and_eq_true] at h14
    exact ⟨fun _ => by simpa using h14.2, fun hm => absurd hm (by decide)⟩
  rw [if_neg h14] at h
  by_cases h15 : ((containsStr nl "documentation" ||
      (containsStr nl "doc" &&
       (containsStr nl "wrote" || containsStr nl "update" || containsStr nl "add"))) &&
      !isExcluded no "Docs") = true
  · rw [if_pos h15] at h
    cases h
    rw [Bool.and_eq_true] at h15
    exact ⟨fun _ => by simpa using h15.2, fun hm => absurd hm (by decide)⟩
  rw [if_neg h15] at h
  exact absurd h (by simp)

theorem phase3_not_excluded (nl no d : String) (h2 : d ∈ EXCLUSION_PATTERNS.map Prod.fst)
    (h3 : isExcluded no d = true) : ∀ c, phase3 nl no ≠ some ⟨c, d⟩ := by
  intro c h
  have hx : (EXCLUSION_PATTERNS.lookup d).isSome = true := by
    simp only [EXCLUSION_PATTERNS, List.map_cons, List.map_nil, List.mem_cons,
      List.not_mem_nil, or_false] at h2
    rcases h2 with rfl | rfl | rfl | rfl | rfl | rfl | rfl <;> decide
  have hfalse := (phase3_inv nl no ⟨c, d⟩ h).1 hx
  rw [h3] at hfalse
  cases hfalse

theorem phase3_goose_needs_confirmation (nl no : String)
    (h2 : hasConfirmation no "goose contributions" = false) :
    phase3 nl no ≠ some ⟨"Build", "goose contributions"⟩ := by
  intro h
  have := (phase3_inv nl no _ h).2 rfl
  rw [h2] at this
  cases this

theorem phase1Step_goose (nl no : String) (tags : List Tag)
    (h2 : hasConfirmation no "goose contributions" = false) :
    phase1Step nl no tags gooseTag = none := by
  unfold phase1Step
  simp [gooseTag, TAG_CATEGORY_MAP, List.lookup, h2]

theorem phase2Step_goose (nl no : String)
    (h2 : hasConfirmation no "goose contributions" = false) :
    phase2Step nl no "goose" = none := by
  unfold phase2Step
  simp [TAG_NAME_MAP, List.lookup, h2]

theorem categorize_goose_only (t : Task) (h1 : t.tags = [gooseTag])
    (h2 : hasConfirmation t.name "goose contributions" = false) :
    categorizeTask t = .ok (phase3 (jsToLower t.name) t.name) := by
  have e0 : phase0 [gooseTag] = none := by decide
  have elow : jsToLower "goose" = "goose" := by decide
  have ep2 : phase2 (jsToLower t.name) t.name [gooseTag] = .ok none := by
    show phase2 (jsToLower t.name) t.name [⟨some "1208438924809387", some "goose"⟩] = .ok none
    simp [phase2, elow, phase2Step_goose _ _ h2]
  unfold categorizeTask
  simp [h1, e0, List.findSome?, phase1Step_goose _ _ _ h2, ep2]

-- ============================================
-- C2 and C3: classifier totality and priority tags
-- ============================================

/-- C2: the claim says classification never raises a fault, even for a tag
object without a name field; the phase-2 loop evaluates
tag.name.toLowerCase() unguarded, so the concrete task badTagTask (a name-less
tag with an unmapped gid) makes categorizeTask throw, here the .error value.
This exhibits the code bug contradicting the claim. -/
theorem classify_phase2_fault : categorizeTask badTagTask = .error () := by decide

/-- C3: a task carrying a priority-tag identifier (side project, cfp or goose
contribution) is classified by phase 0 alone: the result is the fixed pair of
the first matching priority tag, a function of the tags only, so it does not
depend on the task name and no keyword, confirmation or exclusion rule can
change the outcome. The spec's test instance is the witness. -/
theorem priority_tag_dominates (t : Task) (h : hasPriorityGid t.tags = true) :
    (phase0 t.tags).isSome = true ∧
    ∀ name : String, categorizeTask { t with name := name } = .ok (phase0 t.tags) := by
  have h0 := phase0_isSome_of_priority t.tags h
  refine ⟨h0, fun name => ?_⟩
  obtain ⟨m, hm⟩ := Option.isSome_iff_exists.mp h0
  rw [categorizeTask_phase0 { t with name := name } m hm, hm]

theorem priority_tag_dominates_witness :
    hasPriorityGid prepTask.tags = true ∧
    categorizeTask prepTask = .ok (some ⟨"Build", "Side projects"⟩) := by
  refine ⟨by decide, ?_⟩
  have h := (priority_tag_dominates prepTask (by decide)).2 "prep meeting notes"
  have heq : ({ prepTask with name := "prep meeting notes" } : Task) = prepTask := by decide
  rw [heq] at h
  rw [h]
  decide

-- ============================================
-- C4: exclusion dominance
-- ============================================

/-- C4 (amended): for a task that reaches the keyword phase (here: a task
with no tags), a name matching one of a deliverable's exclusion regexes never
classifies into that deliverable, for every deliverable possessing an
exclusion set. The tag-driven phases (phase-0 priority tags and the phase-1
tutorial-tag medium routing) can bypass exclusions, which forces the
restriction; see the counterexample. -/
theorem exclusion_dominance_keyword_phase (t : Task) (d : String) (h1 : t.tags = [])
    (h2 : d ∈ EXCLUSION_PATTERNS.map Prod.fst) (h3 : isExcluded t.name d = true) :
    ∀ c : String, categorizeTask t ≠ .ok (some ⟨c, d⟩) := by
  intro c h
  rw [categorizeTask_no_tags t h1] at h
  exact phase3_not_excluded (jsToLower t.name) t.name d h2 h3 c (Except.ok.inj h)

/-- C4 counterexample: the task named "share tutorial video" carrying the
tutorial tag matches the positive tutorial keyword, a video indicator, and a
Tutorial-videos exclusion regex, yet classifies as Videos / Tutorial videos
through the phase-1 tutorial-tag branch, which performs no exclusion check. -/
theorem exclusion_dominance_counterexample :
    categorizeTask tutorialShareTask = .ok (some ⟨"Videos", "Tutorial videos"⟩) ∧
    isExcluded tutorialShareTask.name "Tutorial videos" = true ∧
    containsStr (jsToLower tutorialShareTask.name) "tutorial" = true ∧
    hasVideoIndicatorFn (jsToLower tutorialShareTask.name) = true := by
  refine ⟨by decide, by decide, by decide, by decide⟩

theorem exclusion_dominance_keyword_phase_witness :
    isExcluded scheduleShortsTask.name "Shorts" = true ∧
    categorizeTask scheduleShortsTask ≠ .ok (some ⟨"Videos", "Shorts"⟩) :=
  ⟨by decide,
   exclusion_dominance_keyword_phase scheduleShortsTask "Shorts" rfl (by decide) (by decide) "Videos"⟩

-- ============================================
-- C7: generic goose tag requires confirmation
-- ============================================

/-- C7 (amended): a task whose only tag is the generic goose tag and whose
name matches no goose-contributions confirmation regex is never classified as
Build / goose contributions; the spec's example task classifies to none. The
claim's stronger "classifies to none" fails because other keyword rules can
still fire, see the counterexample. -/
theorem goose_tag_requires_confirmation :
    (∀ t : Task, t.tags = [gooseTag] → hasConfirmation t.name "goose contributions" = false →
      categorizeTask t ≠ .ok (some ⟨"Build", "goose contributions"⟩)) ∧
    categorizeTask gooseSightingTask = .ok none := by
  constructor
  · intro t h1 h2 h
    rw [categorize_goose_only t h1 h2] at h
    exact phase3_goose_needs_confirmation _ _ h2 (Except.ok.inj h)
  · decide

/-- C7 counterexample: "goose short clip", tagged only with the generic goose
tag and matching no confirmation regex, classifies as Videos / Shorts rather
than none. -/
theorem goose_confirmation_counterexample :
    gooseShortTask.tags = [gooseTag] ∧
    hasConfirmation gooseShortTask.name "goose contributions" = false ∧
    categorizeTask gooseShortTask = .ok (some ⟨"Videos", "Shorts"⟩) :=
  ⟨rfl, by decide, by decide⟩

theorem goose_tag_requires_confirmation_witness :
    hasConfirmation gooseSightingTask.name "goose contributions" = false ∧
    categorizeTask gooseSightingTask ≠ .ok (some ⟨"Build", "goose contributions"⟩) :=
  ⟨by decide, goose_tag_requires_confirmation.1 gooseSightingTask rfl (by decide)⟩

-- ============================================
-- C8: tutorial medium disambiguation
-- ============================================

/-- C8 (amended): for an untagged task that does not match the Shorts rule,
a tutorial-keyword name routes to Videos / Tutorial videos when a video
indicator is present and no Tutorial-videos exclusion matches, and to
Documentation / Docs when no video indicator is present and no Docs exclusion
matches. The Shorts precedence and the exclusion guards are forced by the
counterexample; the code's video indicators also include a bare "published"
without doc/blog. The two spec instances are the witness. -/
theorem tutorial_medium_disambiguation (t : Task) (h0 : t.tags = [])
    (hs : shortsKeywordCond (jsToLower t.name) t.name = false) :
    (tutorialVideoKeyword (jsToLower t.name) = true →
      hasVideoIndicatorFn (jsToLower t.name) = true →
      isExcluded t.name "Tutorial videos" = false →
      categorizeTask t = .ok (some ⟨"Videos", "Tutorial videos"⟩)) ∧
    (writtenTutorialKeyword (jsToLower t.name) = true →
      hasVideoIndicatorFn (jsToLower t.name) = false →
      isExcluded t.name "Docs" = false →
      categorizeTask t = .ok (some ⟨"Documentation", "Docs"⟩)) := by
  have hns : ¬(shortsKeywordCond (jsToLower t.name) t.name = true) := by simp [hs]
  constructor
  · intro ha hb hc
    rw [categorizeTask_no_tags t h0]
    unfold phase3
    have hpos : (tutorialVideoKeyword (jsToLower t.name) && hasVideoIndicatorFn (jsToLower t.name) &&
        !isExcluded t.name "Tutorial videos") = true := by rw [ha, hb, hc]; rfl
    rw [if_neg hns, if_pos hpos]
  · intro ha hb hc
    rw [categorizeTask_no_tags t h0]
    unfold phase3
    have hneg2 : ¬((tutorialVideoKeyword (jsToLower t.name) && hasVideoIndicatorFn (jsToLower t.name) &&
        !isExcluded t.name "Tutorial videos") = true) := by simp [hb]
    have hpos3 : (writtenTutorialKeyword (jsToLower t.name) && !hasVideoIndicatorFn (jsToLower t.name) &&
        !isExcluded t.name "Docs") = true := by rw [ha, hb, hc]; rfl
    rw [if_neg hns, if_neg hneg2, if_pos hpos3]

/-- C8 counterexample: "short tutorial video" contains a tutorial keyword and
a video indicator, yet the Shorts rule fires first and the task classifies as
Videos / Shorts, not Videos / Tutorial videos. -/
theorem tutorial_disambiguation_counterexample :
    shortTutorialTask.tags = [] ∧
    tutorialVideoKeyword (jsToLower shortTutorialTask.name) = true ∧
    hasVideoIndicatorFn (jsToLower shortTutorialTask.name) = true ∧
    categorizeTask shortTutorialTask = .ok (some ⟨"Videos", "Shorts"⟩) :=
  ⟨rfl, by decide, by decide, by decide⟩

theorem tutorial_medium_disambiguation_witness :
    categorizeTask wroteTutorialTask = .ok (some ⟨"Documentation", "Docs"⟩) ∧
    categorizeTask recordedTutorialTask = .ok (some ⟨"Videos", "Tutorial videos"⟩) :=
  ⟨(tutorial_medium_disambiguation wroteTutorialTask rfl (by decide)).2
      (by decide) (by decide) (by decide),
   (tutorial_medium_disambiguation recordedTutorialTask rfl (by decide)).1
      (by decide) (by decide) (by decide)⟩

-- ============================================
-- C6: excluded contributors
-- ============================================

/-- C6: a task assigned to a name on EXCLUDED_ASSIGNEES is dropped by the
search filter before classification, removing it from the filter output in
any position leaves the aggregation input unchanged (so it contributes zero
to every completed count), and a task with no assignee is never dropped by
this rule. -/
theorem excluded_assignee_zero_contribution :
    (∀ (l : List Task) (t : Task) (n : String), t.assignee = some n → n ∈ EXCLUDED_ASSIGNEES →
      t ∉ filterExcludedAssignees l) ∧
    (∀ (l1 l2 : List Task) (t : Task) (n : String), t.assignee = some n → n ∈ EXCLUDED_ASSIGNEES →
      filterExcludedAssignees (l1 ++ t :: l2) = filterExcludedAssignees (l1 ++ l2) ∧
      ∀ goals : Goals,
        calculateProgress (filterExcludedAssignees (l1 ++ t :: l2)) goals =
        calculateProgress (filterExcludedAssignees (l1 ++ l2)) goals) ∧
    (∀ (l : List Task) (t : Task), t.assignee = none → t ∈ l → t ∈ filterExcludedAssignees l) := by
  have hpred : ∀ (t : Task) (n : String), t.assignee = some n → n ∈ EXCLUDED_ASSIGNEES →
      assigneeAllowed t = false := by
    intro t n ha hn
    unfold assigneeAllowed
    rw [ha]
    simp only [EXCLUDED_ASSIGNEES, List.mem_cons, List.not_mem_nil, or_false] at hn
    rcases hn with rfl | rfl | rfl <;> decide
  refine ⟨?_, ?_, ?_⟩
  · intro l t n ha hn hmem
    rw [filterExcludedAssignees, List.mem_filter] at hmem
    rw [hpred t n ha hn] at hmem
    exact absurd hmem.2 (by decide)
  · intro l1 l2 t n ha hn
    have he : filterExcludedAssignees (l1 ++ t :: l2) = filterExcludedAssignees (l1 ++ l2) := by
      unfold filterExcludedAssignees
      simp [List.filter_append, List.filter_cons, hpred t n ha hn]
    exact ⟨he, fun goals => by rw [he]⟩
  · intro l t ha hmem
    rw [filterExcludedAssignees, List.mem_filter]
    refine ⟨hmem, ?_⟩
    unfold assigneeAllowed
    rw [ha]

theorem excluded_assignee_zero_contribution_witness :
    excludedAssigneeTask ∉ filterExcludedAssignees [excludedAssigneeTask] ∧
    unassignedBlogTask ∈ filterExcludedAssignees [unassignedBlogTask] :=
  ⟨excluded_assignee_zero_contribution.1 [excludedAssigneeTask] excludedAssigneeTask
      "Eva Sasson" rfl (by decide),
   excluded_assignee_zero_contribution.2.2 [unassignedBlogTask] unassignedBlogTask rfl
      (by simp)⟩

-- ============================================
-- C5: cache semantics
-- ============================================

theorem lookup_eq_none_of_not_any {α : Type} (m : List (String × α)) (k : String)
    (h : m.any (fun kv => kv.1 == k) = false) : m.lookup k = none := by
  induction m with
  | nil => rfl
  | cons hd tl ih =>
    simp only [List.any_cons, Bool.or_eq_false_iff] at h
    have h1 := h.1
    have hk : (k == hd.1) = false := by
      rw [beq_eq_false_iff_ne] at h1 ⊢
      exact fun e => h1 e.symm
    simp [List.lookup, hk, ih h.2]

theorem lookup_append_of_none {α : Type} (m l : List (String × α)) (k : String)
    (h : m.lookup k = none) : (m ++ l).lookup k = l.lookup k := by
  induction m with
  | nil => simp
  | cons hd tl ih =>
    rw [List.cons_append]
    cases hk : (k == hd.1) with
    | true => simp [List.lookup, hk] at h
    | false =>
      simp only [List.lookup, hk] at h ⊢
      exact ih h

theorem lookup_mapSet {α : Type} (m : List (String × α)) (k : String) (v : α) :
    (mapSet m k v).lookup k = some v := by
  unfold mapSet
  by_cases h : m.any (fun kv => kv.1 == k) = true
  · rw [if_pos h]
    induction m with
    | nil => simp at h
    | cons hd tl ih =>
      rw [List.map_cons]
      by_cases hk : (hd.1 == k) = true
      · rw [if_pos hk]
        simp [List.lookup]
      · rw [if_neg hk]
        rw [List.any_cons, Bool.or_eq_true] at h
        rcases h with h | h
        · exact absurd h hk
        · rw [Bool.not_eq_true] at hk
          have hkk : (k == hd.1) = false := by
            rw [beq_eq_false_iff_ne] at hk ⊢
            exact fun e => hk e.symm
          simp only [List.lookup, hkk]
          exact ih h
  · rw [if_neg h]
    rw [Bool.not_eq_true] at h
    rw [lookup_append_of_none m _ k (lookup_eq_none_of_not_any m k h)]
    simp [List.lookup]

/-- C5: for a configured period, a payload stored while the period's end
boundary is strictly in the past is returned unchanged by getCache at every
later instant with the cache state untouched (no time-based eviction); a
payload stored for a period that is still open at the time of the get is
reported missing once the fixed TTL has elapsed since the put. -/
theorem cache_past_permanent_open_ttl {α : Type} (q : String) (cfg : QuarterCfg)
    (hq : QUARTER_CONFIG.lookup q = some cfg) (st : List (String × CacheEntry α))
    (data : α) (tput : Int) :
    (cfg.endDate < tput →
      ∀ tget : Int, tput ≤ tget →
        getCache (setCache st q data tput) q tget = (some data, setCache st q data tput)) ∧
    (∀ tget : Int, tput ≤ tget → ¬(cfg.endDate < tget) → CURRENT_QUARTER_TTL ≤ tget - tput →
      (getCache (setCache st q data tput) q tget).1 = none) := by
  have hset : (setCache st q data tput).lookup q = some ⟨data, tput, isQuarterPast q tput⟩ :=
    lookup_mapSet st q _
  constructor
  · intro hpast tget hle
    have hpp : isQuarterPast q tput = true := by
      unfold isQuarterPast
      rw [hq]
      exact decide_eq_true hpast
    have hpg : isQuarterPast q tget = true := by
      unfold isQuarterPast
      rw [hq]
      exact decide_eq_true (lt_of_lt_of_le hpast hle)
    simp [getCache, getCacheKey, hset, isCacheValid, hpg, hpp]
  · intro tget hle hopen httl
    have hog : isQuarterPast q tget = false := by
      unfold isQuarterPast
      rw [hq]
      exact decide_eq_false hopen
    have hv : ¬(tget - tput < CURRENT_QUARTER_TTL) := not_lt.mpr httl
    simp [getCache, getCacheKey, hset, isCacheValid, hog, hv]

theorem cache_past_permanent_open_ttl_witness :
    (getCache (setCache ([] : List (String × CacheEntry Nat)) "2026-Q1" 42 1775001600001)
      "2026-Q1" (1775001600001 + CURRENT_QUARTER_TTL)).1 = some 42 ∧
    (getCache (setCache ([] : List (String × CacheEntry Nat)) "2026-Q1" 42
      (1775001600000 - CURRENT_QUARTER_TTL)) "2026-Q1" 1775001600000).1 = none := by
  constructor
  · have h := (cache_past_permanent_open_ttl "2026-Q1"
        ⟨"Q1 2026", 1767139200000, 1775001600000, ["January", "February", "March"]⟩
        (by decide) ([] : List (String × CacheEntry Nat)) 42 1775001600001).1
      (by decide) (1775001600001 + CURRENT_QUARTER_TTL) (by decide)
    rw [h]
  · exact (cache_past_permanent_open_ttl "2026-Q1"
        ⟨"Q1 2026", 1767139200000, 1775001600000, ["January", "February", "March"]⟩
        (by decide) ([] : List (String × CacheEntry Nat)) 42
        (1775001600000 - CURRENT_QUARTER_TTL)).2
      1775001600000 (by decide) (by decide) (by decide)

-- ============================================
-- Aggregation lemmas for C1, C9, C10
-- ============================================

theorem lookup_map_keyfun {β γ : Type} (p : List (String × β)) (g : String → β → γ) (c : String) :
    (p.map (fun cg => (cg.1, g cg.1 cg.2))).lookup c = (p.lookup c).map (g c) := by
  induction p with
  | nil => rfl
  | cons hd tl ih =>
    simp only [List.map_cons, List.lookup]
    cases hk : (c == hd.1) with
    | true =>
      rw [beq_iff_eq] at hk
      subst hk
      rfl
    | false => exact ih

theorem lookup2_mapSlots (f : String → String → DeliverableProgress → DeliverableProgress)
    (p : Progress) (c d : String) :
    lookup2 (mapSlots f p) c d = (lookup2 p c d).map (f c d) := by
  unfold lookup2 mapSlots
  rw [lookup_map_keyfun p (fun c1 ds => ds.map (fun dg => (dg.1, f c1 dg.1 dg.2))) c]
  cases p.lookup c with
  | none => rfl
  | some ds =>
    simp only [Option.map_some', Option.some_bind]
    exact lookup_map_keyfun ds (fun d1 e => f c d1 e) d

theorem slotOf_mapSlots (f : String → String → DeliverableProgress → DeliverableProgress)
    (p : Progress) (c d : String) : slotOf (mapSlots f p) c d = slotOf p c d := by
  unfold slotOf
  rw [lookup2_mapSlots]
  cases lookup2 p c d <;> rfl

theorem mapSlots_mapSlots (f g : String → String → DeliverableProgress → DeliverableProgress)
    (p : Progress) :
    mapSlots f (mapSlots g p) = mapSlots (fun c d e => f c d (g c d e)) p := by
  unfold mapSlots
  rw [List.map_map]
  apply List.map_congr_left
  intro cg _
  show ((cg.1 : String), (cg.2.map (fun dg => (dg.1, g cg.1 dg.1 dg.2))).map (fun dg => (dg.1, f cg.1 dg.1 dg.2))) = _
  rw [List.map_map]
  congr 1

theorem mapSlots_congr (f g : String → String → DeliverableProgress → DeliverableProgress)
    (p : Progress) (h : ∀ c d e, f c d e = g c d e) : mapSlots f p = mapSlots g p := by
  unfold mapSlots
  apply List.map_congr_left
  intro cg _
  congr 1
  apply List.map_congr_left
  intro dg _
  rw [h]

theorem mapSlots_id (p : Progress) : mapSlots (fun c d e => e) p = p := by
  unfold mapSlots
  simp [Prod.mk.eta, List.map_id']

theorem progWF_mapSlots (f : String → String → DeliverableProgress → DeliverableProgress)
    (p : Progress) (h : progWF p) : progWF (mapSlots f p) := by
  obtain ⟨h1, h2⟩ := h
  constructor
  · have hk : (mapSlots f p).map Prod.fst = p.map Prod.fst := by
      unfold mapSlots
      rw [List.map_map]
      apply List.map_congr_left
      intro cg _
      rfl
    rw [hk]
    exact h1
  · intro cg hcg
    unfold mapSlots at hcg
    rw [List.mem_map] at hcg
    obtain ⟨cg0, hcg0, rfl⟩ := hcg
    have hk : ((cg0.2.map (fun dg => (dg.1, f cg0.1 dg.1 dg.2))).map Prod.fst) = cg0.2.map Prod.fst := by
      rw [List.map_map]
      apply List.map_congr_left
      intro dg _
      rfl
    simpa [hk] using h2 cg0 hcg0

theorem slotAdd_nil (c d : String) (e : DeliverableProgress) : slotAdd [] c d e = e := by
  unfold slotAdd
  cases e with
  | mk comp tks pf => simp

theorem initProgress_WF (goals : Goals) (h : goalsWF goals) : progWF (initProgress goals) := by
  obtain ⟨h1, h2⟩ := h
  constructor
  · have hk : (initProgress goals).map Prod.fst = goals.map Prod.fst := by
      unfold initProgress
      rw [List.map_map]
      apply List.map_congr_left
      intro cg _
      rfl
    rw [hk]
    exact h1
  · intro cg hcg
    unfold initProgress at hcg
    rw [List.mem_map] at hcg
    obtain ⟨cg0, hcg0, rfl⟩ := hcg
    have hk : ((cg0.2.map (fun dg => (dg.1, (⟨0, [], none⟩ : DeliverableProgress)))).map Prod.fst) =
        cg0.2.map Prod.fst := by
      rw [List.map_map]
      apply List.map_congr_left
      intro dg _
      rfl
    simpa [hk] using h2 cg0 hcg0

theorem lookup2_initProgress (goals : Goals) (c d : String) :
    lookup2 (initProgress goals) c d =
      (glookup2 goals c d).map (fun _ => (⟨0, [], none⟩ : DeliverableProgress)) := by
  unfold lookup2 glookup2 initProgress
  rw [lookup_map_keyfun goals
    (fun c1 ds => ds.map (fun dg => (dg.1, (⟨0, [], none⟩ : DeliverableProgress)))) c]
  cases goals.lookup c with
  | none => rfl
  | some ds =>
    simp only [Option.map_some', Option.some_bind]
    exact lookup_map_keyfun ds (fun d1 tgt => (⟨0, [], none⟩ : DeliverableProgress)) d

theorem slotAdd_compose (t : Task) (rest : List Task) (m : Mapping) (p : Progress)
    (hcat : categorizeTask t = .ok (some m)) :
    mapSlots (slotAdd rest) (updateSlot p m.category m.deliverable (taskDataOf t)) =
    mapSlots (slotAdd (t :: rest)) p := by
  unfold updateSlot
  rw [mapSlots_mapSlots]
  apply mapSlots_congr
  intro c d e
  by_cases hcd : (c == m.category && d == m.deliverable) = true
  · rw [if_pos hcd]
    rw [Bool.and_eq_true, beq_iff_eq, beq_iff_eq] at hcd
    have hct : classTo c d t = true := by
      unfold classTo
      rw [hcat, hcd.1, hcd.2]
      exact decide_eq_true rfl
    unfold slotAdd
    simp only [List.filter_cons, hct, if_true, List.map_cons, List.length_cons]
    cases e with
    | mk comp tks pf =>
      simp only [List.append_assoc, List.singleton_append]
      congr 1
      omega
  · rw [if_neg hcd]
    have hcf : classTo c d t = false := by
      unfold classTo
      rw [hcat]
      apply decide_eq_false
      intro he
      apply hcd
      have hm := Option.some.inj (Except.ok.inj he)
      rw [Bool.and_eq_true, beq_iff_eq, beq_iff_eq]
      exact ⟨(congrArg Mapping.category hm).symm, (congrArg Mapping.deliverable hm).symm⟩
    unfold slotAdd
    simp only [List.filter_cons, hcf]
    rfl

theorem patFold_congr (q1 q2 : Task → Bool) (acc : List String) (l : List Task)
    (h : ∀ t ∈ l, q1 t = q2 t) : patFold q1 acc l = patFold q2 acc l := by
  induction l generalizing acc with
  | nil => rfl
  | cons t rest ih =>
    rw [patFold, patFold, h t (List.mem_cons_self t rest)]
    exact ih _ (fun u hu => h u (List.mem_cons_of_mem t hu))

theorem patQual_slotOf_mapSlots (f : String → String → DeliverableProgress → DeliverableProgress)
    (p : Progress) (t : Task) : patQual (slotOf (mapSlots f p)) t = patQual (slotOf p) t := by
  unfold patQual
  cases categorizeTask t with
  | error e => rfl
  | ok mo =>
    cases mo with
    | none => rfl
    | some m => simp [slotOf_mapSlots]

theorem mapSlots_congr_mem (f g : String → String → DeliverableProgress → DeliverableProgress)
    (p : Progress) (h : ∀ cg ∈ p, ∀ dg ∈ cg.2, f cg.1 dg.1 dg.2 = g cg.1 dg.1 dg.2) :
    mapSlots f p = mapSlots g p := by
  unfold mapSlots
  apply List.map_congr_left
  intro cg hcg
  congr 1
  apply List.map_congr_left
  intro dg hdg
  rw [h cg hcg dg hdg]

theorem lookup_of_mem_nodup {β : Type} (l : List (String × β)) (k : String) (v : β)
    (hnd : (l.map Prod.fst).Nodup) (hm : (k, v) ∈ l) : l.lookup k = some v := by
  induction l with
  | nil => cases hm
  | cons hd tl ih =>
    rw [List.map_cons, List.nodup_cons] at hnd
    rcases List.mem_cons.mp hm with heq | hmem
    · cases heq
      simp [List.lookup]
    · have hk : (k == hd.1) = false := by
        rw [beq_eq_false_iff_ne]
        intro e
        exact hnd.1 (e ▸ List.mem_map_of_mem Prod.fst hmem)
      simp only [List.lookup, hk]
      exact ih hnd.2 hmem

theorem lookup2_of_mem (p : Progress) (hwf : progWF p)
    (cg : String × List (String × DeliverableProgress)) (dg : String × DeliverableProgress)
    (hcg : cg ∈ p) (hdg : dg ∈ cg.2) : lookup2 p cg.1 dg.1 = some dg.2 := by
  unfold lookup2
  rw [lookup_of_mem_nodup p cg.1 cg.2 hwf.1 hcg]
  simp only [Option.some_bind]
  exact lookup_of_mem_nodup cg.2 dg.1 dg.2 (hwf.2 cg hcg) hdg

/-- Closed form of the task loop of calculateProgress: the resulting progress
applies slotAdd to every slot and the resulting patterns set is the patFold
over the qualifying tasks, with slot availability judged against the initial
progress (the loop never adds or removes slots). -/
theorem calcLoop_ok (tasks : List Task) (p : Progress) (pats : List String)
    (ptasks : List TaskData) (res : Progress × List String × List TaskData) (hwf : progWF p)
    (h : calcLoop tasks p pats ptasks = .ok res) :
    res.1 = mapSlots (slotAdd tasks) p ∧ res.2.1 = patFold (patQual (slotOf p)) pats tasks := by
  induction tasks generalizing p pats ptasks with
  | nil =>
    simp only [calcLoop] at h
    cases Except.ok.inj h
    constructor
    · rw [mapSlots_congr (slotAdd []) (fun c d e => e) p (fun c d e => slotAdd_nil c d e),
        mapSlots_id]
    · rfl
  | cons t rest ih =>
    cases hcat : categorizeTask t with
    | error e0 =>
      simp only [calcLoop, hcat] at h
      exact absurd h (by simp)
    | ok mo =>
      cases mo with
      | none =>
        simp only [calcLoop, hcat] at h
        obtain ⟨h1, h2⟩ := ih p pats ptasks hwf h
        have hcf : ∀ c d, classTo c d t = false := by
          intro c d
          unfold classTo
          rw [hcat]
          exact decide_eq_false (by simp)
        constructor
        · rw [h1]
          apply mapSlots_congr
          intro c d e
          unfold slotAdd
          simp [List.filter_cons, hcf]
        · rw [h2, patFold]
          have hq : patQual (slotOf p) t = false := by
            simp [patQual, hcat]
          simp [hq]
      | some m =>
        simp only [calcLoop, hcat] at h
        by_cases hslot : (lookup2 p m.category m.deliverable).isSome = true
        · rw [if_pos hslot] at h
          by_cases hcont : (CONTENT_DELIVERABLES.contains m.deliverable &&
              decide (0 < (detectAgenticPatterns t.name).length)) = true
          · rw [if_pos hcont] at h
            have hwf1 : progWF (updateSlot p m.category m.deliverable (taskDataOf t)) :=
              progWF_mapSlots _ p hwf
            obtain ⟨h1, h2⟩ := ih _ _ _ hwf1 h
            constructor
            · rw [h1, slotAdd_compose t rest m p hcat]
            · rw [h2, patFold]
              have hq : patQual (slotOf p) t = true := by
                have hc2 := hcont
                rw [Bool.and_eq_true] at hc2
                have hmemc : m.deliverable ∈ CONTENT_DELIVERABLES := by simpa using hc2.1
                simp [patQual, hcat, slotOf, hslot, hmemc, hc2.2]
              simp only [hq, if_true]
              apply patFold_congr
              intro u hu
              exact patQual_slotOf_mapSlots _ p u
          · rw [if_neg hcont] at h
            have hwf1 : progWF (updateSlot p m.category m.deliverable (taskDataOf t)) :=
              progWF_mapSlots _ p hwf
            obtain ⟨h1, h2⟩ := ih _ _ _ hwf1 h
            constructor
            · rw [h1, slotAdd_compose t rest m p hcat]
            · rw [h2, patFold]
              have hq : patQual (slotOf p) t = false := by
                rw [Bool.not_eq_true] at hcont
                simp only [patQual, hcat]
                rw [Bool.and_eq_false_iff] at hcont
                rcases hcont with hc | hc
                · simp only [hc, Bool.and_false, Bool.false_and]
                · simp only [hc, Bool.and_false]
              simp only [hq, Bool.false_eq_true, if_false]
              apply patFold_congr
              intro u hu
              exact patQual_slotOf_mapSlots _ p u
        · rw [if_neg hslot] at h
          obtain ⟨h1, h2⟩ := ih p pats ptasks hwf h
          constructor
          · rw [h1]
            apply mapSlots_congr_mem
            intro cg hcg dg hdg
            unfold slotAdd
            have hcf : classTo cg.1 dg.1 t = false := by
              unfold classTo
              rw [hcat]
              apply decide_eq_false
              intro he
              have hm := Option.some.inj (Except.ok.inj he)
              apply hslot
              rw [hm]
              rw [lookup2_of_mem p hwf cg dg hcg hdg]
              rfl
            simp [List.filter_cons, hcf]
          · rw [h2, patFold]
            have hq : patQual (slotOf p) t = false := by
              rw [Bool.not_eq_true] at hslot
              simp [patQual, hcat, slotOf, hslot]
            simp [hq]

/-- Shape of a successful calculateProgress: the loop result on every slot,
then the Agentic-patterns-owned override when that slot is declared. -/
theorem calculateProgress_shape (tasks : List Task) (goals : Goals) (prog : Progress)
    (hwf : goalsWF goals) (h : calculateProgress tasks goals = .ok prog) :
    ∃ p1 pats ptasks,
      p1 = mapSlots (slotAdd tasks) (initProgress goals) ∧
      pats = patFold (patQual (slotOf (initProgress goals))) [] tasks ∧
      prog = (if (lookup2 p1 "Build" "Agentic patterns owned").isSome
              then overrideAPO p1 pats ptasks else p1) := by
  cases hc : calcLoop tasks (initProgress goals) [] [] with
  | error e =>
    simp only [calculateProgress, hc] at h
    exact absurd h (by simp)
  | ok r =>
    obtain ⟨p1, pats, ptasks⟩ := r
    have hl := calcLoop_ok tasks (initProgress goals) [] [] (p1, pats, ptasks)
      (initProgress_WF goals hwf) hc
    simp only [calculateProgress, hc] at h
    exact ⟨p1, pats, ptasks, hl.1, hl.2, (Except.ok.inj h).symm⟩

theorem mem_insertPats (acc ps : List String) (x : String) :
    x ∈ insertPats acc ps ↔ x ∈ acc ∨ x ∈ ps := by
  induction ps generalizing acc with
  | nil => simp [insertPats]
  | cons p rest ih =>
    by_cases hc : acc.contains p = true
    · have he : insertPats acc (p :: rest) = insertPats acc rest := by
        simp only [insertPats, List.foldl_cons, hc, if_true]
      rw [he, ih]
      have hp : p ∈ acc := by simpa using hc
      simp only [List.mem_cons]
      constructor
      · rintro (hx | hx)
        · exact Or.inl hx
        · exact Or.inr (Or.inr hx)
      · rintro (hx | hx | hx)
        · exact Or.inl hx
        · exact Or.inl (hx ▸ hp)
        · exact Or.inr hx
    · have he : insertPats acc (p :: rest) = insertPats (acc ++ [p]) rest := by
        rw [Bool.not_eq_true] at hc
        simp only [insertPats, List.foldl_cons, hc, Bool.false_eq_true, if_false]
      rw [he, ih]
      simp only [List.mem_append, List.mem_singleton, List.mem_cons]
      tauto

theorem nodup_insertPats (acc ps : List String) (h : acc.Nodup) : (insertPats acc ps).Nodup := by
  induction ps generalizing acc with
  | nil => exact h
  | cons p rest ih =>
    by_cases hc : acc.contains p = true
    · have he : insertPats acc (p :: rest) = insertPats acc rest := by
        simp only [insertPats, List.foldl_cons, hc, if_true]
      rw [he]
      exact ih acc h
    · have he : insertPats acc (p :: rest) = insertPats (acc ++ [p]) rest := by
        rw [Bool.not_eq_true] at hc
        simp only [insertPats, List.foldl_cons, hc, Bool.false_eq_true, if_false]
      rw [he]
      apply ih
      have hp : p ∉ acc := by
        intro hmem
        rw [Bool.not_eq_true] at hc
        rw [show acc.contains p = true by simpa using hmem] at hc
        cases hc
      simp [List.nodup_append, h, hp]

theorem mem_patFold (q : Task → Bool) (acc : List String) (l : List Task) (x : String) :
    x ∈ patFold q acc l ↔
      x ∈ acc ∨ ∃ t, t ∈ l ∧ q t = true ∧ x ∈ detectAgenticPatterns t.name := by
  induction l generalizing acc with
  | nil => simp [patFold]
  | cons t rest ih =>
    rw [patFold]
    by_cases hq : q t = true
    · rw [if_pos hq, ih, mem_insertPats]
      constructor
      · rintro ((hx | hx) | ⟨u, hu, hqu, hx⟩)
        · exact Or.inl hx
        · exact Or.inr ⟨t, List.mem_cons_self t rest, hq, hx⟩
        · exact Or.inr ⟨u, List.mem_cons_of_mem t hu, hqu, hx⟩
      · rintro (hx | ⟨u, hu, hqu, hx⟩)
        · exact Or.inl (Or.inl hx)
        · rcases List.mem_cons.mp hu with rfl | hu2
          · exact Or.inl (Or.inr hx)
          · exact Or.inr ⟨u, hu2, hqu, hx⟩
    · rw [if_neg hq, ih]
      constructor
      · rintro (hx | ⟨u, hu, hqu, hx⟩)
        · exact Or.inl hx
        · exact Or.inr ⟨u, List.mem_cons_of_mem t hu, hqu, hx⟩
      · rintro (hx | ⟨u, hu, hqu, hx⟩)
        · exact Or.inl hx
        · rcases List.mem_cons.mp hu with rfl | hu2
          · exact absurd hqu hq
          · exact Or.inr ⟨u, hu2, hqu, hx⟩

theorem nodup_patFold (q : Task → Bool) (acc : List String) (l : List Task) (h : acc.Nodup) :
    (patFold q acc l).Nodup := by
  induction l generalizing acc with
  | nil => exact h
  | cons t rest ih =>
    rw [patFold]
    by_cases hq : q t = true
    · rw [if_pos hq]
      exact ih _ (nodup_insertPats acc _ h)
    · rw [if_neg hq]
      exact ih _ h

-- ============================================
-- C10: shape of the aggregated progress
-- ============================================

/-- C10: a successful aggregation produces a Progress containing exactly the
(category, deliverable) pairs declared in the goal spec, and for every pair
other than Build / Agentic patterns owned the completed count equals the
length of the slot's contributing-task list, which is exactly the display
records of the tasks classifying to the pair, in input-list order. -/
theorem progress_shape_and_counts (goals : Goals) (tasks : List Task) (prog : Progress)
    (hwf : goalsWF goals) (h : calculateProgress tasks goals = .ok prog) :
    (∀ c d : String, (lookup2 prog c d).isSome = (glookup2 goals c d).isSome) ∧
    (∀ (c d : String) (e : DeliverableProgress), ¬(c = "Build" ∧ d = "Agentic patterns owned") →
      lookup2 prog c d = some e →
      e.completed = e.tasks.length ∧ e.tasks = (tasks.filter (classTo c d)).map taskDataOf) := by
  obtain ⟨p1, pats, ptasks, hp1, hpats, hprog⟩ := calculateProgress_shape tasks goals prog hwf h
  have hl1 : ∀ c d, lookup2 p1 c d =
      ((glookup2 goals c d).map (fun _ => (⟨0, [], none⟩ : DeliverableProgress))).map
        (slotAdd tasks c d) := by
    intro c d
    rw [hp1, lookup2_mapSlots, lookup2_initProgress]
  constructor
  · intro c d
    have hiso : (lookup2 prog c d).isSome = (lookup2 p1 c d).isSome := by
      rw [hprog]
      by_cases hite : (lookup2 p1 "Build" "Agentic patterns owned").isSome = true
      · rw [if_pos hite]
        unfold overrideAPO
        rw [lookup2_mapSlots]
        cases lookup2 p1 c d <;> rfl
      · rw [if_neg hite]
    rw [hiso, hl1]
    cases glookup2 goals c d <;> rfl
  · intro c d e hne hl
    have hb : (c == "Build" && d == "Agentic patterns owned") = false := by
      rw [Bool.eq_false_iff]
      intro htrue
      rw [Bool.and_eq_true, beq_iff_eq, beq_iff_eq] at htrue
      exact hne htrue
    have hlp1 : lookup2 p1 c d = some e := by
      rw [hprog] at hl
      by_cases hite : (lookup2 p1 "Build" "Agentic patterns owned").isSome = true
      · rw [if_pos hite] at hl
        unfold overrideAPO at hl
        rw [lookup2_mapSlots] at hl
        cases hx : lookup2 p1 c d with
        | none => rw [hx] at hl; cases hl
        | some e0 =>
          rw [hx] at hl
          simp only [Option.map_some'] at hl
          rw [hb] at hl
          simpa using hl
      · rw [if_neg hite] at hl
        exact hl
    rw [hl1] at hlp1
    cases hg : glookup2 goals c d with
    | none => rw [hg] at hlp1; cases hlp1
    | some tgt =>
      rw [hg] at hlp1
      simp only [Option.map_some'] at hlp1
      have he : e = slotAdd tasks c d ⟨0, [], none⟩ := (Option.some.inj hlp1).symm
      rw [he]
      unfold slotAdd
      constructor
      · simp
      · simp

-- ============================================
-- C9: the derived patterns set is order-invariant
-- ============================================

theorem override_slot_content (goals : Goals) (ts : List Task) (pr : Progress)
    (hwf : goalsWF goals) (hpr : calculateProgress ts goals = .ok pr)
    (ee : DeliverableProgress) (hee : lookup2 pr "Build" "Agentic patterns owned" = some ee) :
    ∃ pf, ee.patternsFound = some pf ∧ ee.completed = pf.length ∧ pf.Nodup ∧
      ∀ x, x ∈ pf ↔ ∃ t, t ∈ ts ∧ patQual (slotOf (initProgress goals)) t = true ∧
        x ∈ detectAgenticPatterns t.name := by
  obtain ⟨p1, pats, ptasks, hp1, hpats, hprog⟩ := calculateProgress_shape ts goals pr hwf hpr
  by_cases hite : (lookup2 p1 "Build" "Agentic patterns owned").isSome = true
  · rw [hprog, if_pos hite] at hee
    unfold overrideAPO at hee
    rw [lookup2_mapSlots] at hee
    cases hx : lookup2 p1 "Build" "Agentic patterns owned" with
    | none => rw [hx] at hee; cases hee
    | some e0 =>
      rw [hx] at hee
      simp only [Option.map_some'] at hee
      rw [if_pos (show (("Build" : String) == "Build" &&
          ("Agentic patterns owned" : String) == "Agentic patterns owned") = true by decide)] at hee
      cases Option.some.inj hee
      refine ⟨pats, rfl, rfl, ?_, ?_⟩
      · rw [hpats]
        exact nodup_patFold _ _ _ List.nodup_nil
      · intro x
        rw [hpats, mem_patFold]
        simp
  · rw [hprog, if_neg hite] at hee
    exact absurd (by rw [hee]; rfl) hite

/-- C9: the set of distinct agentic patterns derived by the aggregator (the
Agentic patterns owned count and its patternsFound list) is invariant under
permutation of the input task list up to set equality, with equal
cardinality, and aggregating the same task list twice yields the same
result. -/
theorem patterns_set_order_invariant (goals : Goals) (tasks tasksP : List Task)
    (prog progP : Progress) (hperm : tasks.Perm tasksP) (hwf : goalsWF goals)
    (h : calculateProgress tasks goals = .ok prog)
    (hP : calculateProgress tasksP goals = .ok progP)
    (e eP : DeliverableProgress)
    (hl : lookup2 prog "Build" "Agentic patterns owned" = some e)
    (hlP : lookup2 progP "Build" "Agentic patterns owned" = some eP) :
    (e.completed = eP.completed ∧
     ∃ pf pfP, e.patternsFound = some pf ∧ eP.patternsFound = some pfP ∧
       (∀ x, x ∈ pf ↔ x ∈ pfP) ∧ pf.length = pfP.length) ∧
    (∀ prog2, calculateProgress tasks goals = .ok prog2 → prog2 = prog) := by
  obtain ⟨pf, hpf1, hpf2, hpfnd, hpfmem⟩ := override_slot_content goals tasks prog hwf h e hl
  obtain ⟨pfP, hq1, hq2, hqnd, hqmem⟩ := override_slot_content goals tasksP progP hwf hP eP hlP
  have hmemiff : ∀ x, x ∈ pf ↔ x ∈ pfP := by
    intro x
    rw [hpfmem, hqmem]
    constructor
    · rintro ⟨t, ht, hq, hx⟩
      exact ⟨t, hperm.mem_iff.mp ht, hq, hx⟩
    · rintro ⟨t, ht, hq, hx⟩
      exact ⟨t, hperm.mem_iff.mpr ht, hq, hx⟩
  have hlen : pf.length = pfP.length :=
    ((List.perm_ext_iff_of_nodup hpfnd hqnd).mpr hmemiff).length_eq
  refine ⟨⟨by rw [hpf2, hq2, hlen], pf, pfP, hpf1, hq1, hmemiff, hlen⟩, ?_⟩
  intro prog2 h2
  rw [h] at h2
  exact (Except.ok.inj h2).symm

-- ============================================
-- C1: aggregation sum (corrected form)
-- ============================================

theorem lookup_eq_none_of_not_mem_keys {β : Type} (l : List (String × β)) (k : String)
    (h : k ∉ l.map Prod.fst) : l.lookup k = none := by
  induction l with
  | nil => rfl
  | cons hd tl ih =>
    rw [List.map_cons, List.mem_cons, not_or] at h
    have hk : (k == hd.1) = false := by
      rw [beq_eq_false_iff_ne]
      exact h.1
    simp only [List.lookup, hk]
    exact ih h.2

theorem sumExcept_mapSlots (f : String → String → DeliverableProgress → DeliverableProgress)
    (p : Progress)
    (hf : ∀ c d e, (c == "Build" && d == "Agentic patterns owned") = false →
      (f c d e).completed = e.completed) :
    sumCompletedExceptPatterns (mapSlots f p) = sumCompletedExceptPatterns p := by
  unfold sumCompletedExceptPatterns mapSlots
  rw [List.map_map]
  apply congrArg List.sum
  apply List.map_congr_left
  intro cg _
  show ((((cg.2.map (fun dg => (dg.1, f cg.1 dg.1 dg.2))).filter
      (fun dg => !(cg.1 == "Build" && dg.1 == "Agentic patterns owned"))).map
      (fun dg => dg.2.completed)).sum) = _
  have hfil : (cg.2.map (fun dg => (dg.1, f cg.1 dg.1 dg.2))).filter
      (fun dg => !(cg.1 == "Build" && dg.1 == "Agentic patterns owned")) =
      (cg.2.filter (fun dg => !(cg.1 == "Build" && dg.1 == "Agentic patterns owned"))).map
      (fun dg => (dg.1, f cg.1 dg.1 dg.2)) := by
    rw [List.filter_map]
    congr 1
  rw [hfil, List.map_map]
  apply congrArg List.sum
  apply List.map_congr_left
  intro dg hdg
  show (f cg.1 dg.1 dg.2).completed = dg.2.completed
  apply hf
  rw [List.mem_filter] at hdg
  have h2 := hdg.2
  cases hx : (cg.1 == "Build" && dg.1 == "Agentic patterns owned") with
  | true => rw [hx] at h2; cases h2
  | false => rfl

theorem sumExcept_override (p : Progress) (pats : List String) (ptasks : List TaskData) :
    sumCompletedExceptPatterns (overrideAPO p pats ptasks) = sumCompletedExceptPatterns p := by
  unfold overrideAPO
  apply sumExcept_mapSlots
  intro c d e hcd
  rw [hcd]
  simp

theorem sumExcept_slotAdd_init (tasks : List Task) (goals : Goals) :
    sumCompletedExceptPatterns (mapSlots (slotAdd tasks) (initProgress goals)) =
    declaredCountExcept tasks goals := by
  unfold sumCompletedExceptPatterns mapSlots initProgress declaredCountExcept
  rw [List.map_map, List.map_map]
  apply congrArg List.sum
  apply List.map_congr_left
  intro cg _
  show (((((cg.2.map (fun dg => (dg.1, (⟨0, [], none⟩ : DeliverableProgress)))).map
      (fun dg => (dg.1, slotAdd tasks cg.1 dg.1 dg.2))).filter
      (fun dg => !(cg.1 == "Build" && dg.1 == "Agentic patterns owned"))).map
      (fun dg => dg.2.completed)).sum) = _
  rw [List.map_map]
  have hcomp : ((fun dg => (dg.1, slotAdd tasks cg.1 dg.1 dg.2)) ∘
      (fun dg => ((dg : String × Option Nat).1, (⟨0, [], none⟩ : DeliverableProgress)))) =
      (fun dg => ((dg : String × Option Nat).1,
        slotAdd tasks cg.1 dg.1 (⟨0, [], none⟩ : DeliverableProgress))) := rfl
  rw [hcomp]
  have hfil : (cg.2.map (fun dg =>
      (dg.1, slotAdd tasks cg.1 dg.1 (⟨0, [], none⟩ : DeliverableProgress)))).filter
      (fun dg => !(cg.1 == "Build" && dg.1 == "Agentic patterns owned")) =
      (cg.2.filter (fun dg => !(cg.1 == "Build" && dg.1 == "Agentic patterns owned"))).map
      (fun dg => (dg.1, slotAdd tasks cg.1 dg.1 (⟨0, [], none⟩ : DeliverableProgress))) := by
    rw [List.filter_map]
    congr 1
  rw [hfil, List.map_map]
  apply congrArg List.sum
  apply List.map_congr_left
  intro dg hdg
  show (slotAdd tasks cg.1 dg.1 (⟨0, [], none⟩ : DeliverableProgress)).completed =
    (tasks.filter (classTo cg.1 dg.1)).length
  unfold slotAdd
  simp

theorem length_filter_or_disjoint {α : Type} (l : List α) (p q : α → Bool)
    (hdis : ∀ a ∈ l, ¬(p a = true ∧ q a = true)) :
    (l.filter (fun a => p a || q a)).length = (l.filter p).length + (l.filter q).length := by
  induction l with
  | nil => rfl
  | cons a rest ih =>
    have hd := hdis a (List.mem_cons_self a rest)
    have ihr := ih (fun b hb => hdis b (List.mem_cons_of_mem a hb))
    simp only [List.filter_cons]
    cases hp : p a with
    | true =>
      have hq : q a = false := by
        cases hq : q a with
        | true => exact absurd ⟨hp, hq⟩ hd
        | false => rfl
      simp only [hp, hq, Bool.true_or, if_true, Bool.false_eq_true, if_false, List.length_cons, ihr]
      omega
    | false =>
      cases hq : q a with
      | true =>
        simp only [hp, hq, Bool.false_or, if_true, Bool.false_eq_true, if_false,
          List.length_cons, ihr]
        omega
      | false =>
        simp only [hp, hq, Bool.false_or, Bool.false_eq_true, if_false, ihr]

theorem mem_of_lookup_eq_some {β : Type} (l : List (String × β)) (k : String) (v : β)
    (h : l.lookup k = some v) : (k, v) ∈ l := by
  induction l with
  | nil => cases h
  | cons hd tl ih =>
    obtain ⟨k1, v1⟩ := hd
    cases hk : (k == k1) with
    | true =>
      simp only [List.lookup, hk] at h
      have hkk : k = k1 := beq_iff_eq.mp hk
      have hv : v1 = v := Option.some.inj h
      exact List.mem_cons.mpr (Or.inl (by rw [hkk, hv]))
    | false =>
      simp only [List.lookup, hk] at h
      exact List.mem_cons_of_mem _ (ih h)

theorem classTo_inj (t : Task) (c d c2 d2 : String) (h1 : classTo c d t = true)
    (h2 : classTo c2 d2 t = true) : c = c2 ∧ d = d2 := by
  unfold classTo at h1 h2
  have e1 := of_decide_eq_true h1
  have e2 := of_decide_eq_true h2
  rw [e1] at e2
  have e3 := Option.some.inj (Except.ok.inj e2)
  exact ⟨congrArg Mapping.category e3, congrArg Mapping.deliverable e3⟩

theorem inner_count (tasks : List Task) (c : String) (ds : List (String × Option Nat))
    (hnd : (ds.map Prod.fst).Nodup) :
    (ds.map (fun dg => (tasks.filter (classTo c dg.1)).length)).sum =
    (tasks.filter (fun t => ds.any (fun dg => classTo c dg.1 t))).length := by
  induction ds with
  | nil => simp
  | cons dg rest ih =>
    rw [List.map_cons, List.nodup_cons] at hnd
    rw [List.map_cons, List.sum_cons, ih hnd.2]
    have hdis : ∀ t ∈ tasks,
        ¬((fun u => classTo c dg.1 u) t = true ∧
          (fun u => rest.any (fun dg2 => classTo c dg2.1 u)) t = true) := by
      intro t _ hpair
      obtain ⟨h1, h2⟩ := hpair
      rw [List.any_eq_true] at h2
      obtain ⟨dg2, hdg2, hc2⟩ := h2
      have heq := (classTo_inj t c dg.1 c dg2.1 h1 hc2).2
      exact hnd.1 (heq ▸ List.mem_map_of_mem Prod.fst hdg2)
    have hsplit := length_filter_or_disjoint tasks (fun u => classTo c dg.1 u)
      (fun u => rest.any (fun dg2 => classTo c dg2.1 u)) hdis
    have hgoal : (tasks.filter (fun t => (dg :: rest).any (fun dg2 => classTo c dg2.1 t))).length
        = (tasks.filter (fun u => classTo c dg.1 u ||
            rest.any (fun dg2 => classTo c dg2.1 u))).length := rfl
    rw [hgoal, hsplit]

theorem outer_count (tasks : List Task) (goals : Goals) (hwf : goalsWF goals) :
    declaredCountExcept tasks goals =
    (tasks.filter (fun t => goals.any (fun cg =>
      (cg.2.filter (fun dg => !(cg.1 == "Build" && dg.1 == "Agentic patterns owned"))).any
        (fun dg => classTo cg.1 dg.1 t)))).length := by
  induction goals with
  | nil => simp [declaredCountExcept]
  | cons cg rest ih =>
    obtain ⟨hnd, hin⟩ := hwf
    rw [List.map_cons, List.nodup_cons] at hnd
    have hwfr : goalsWF rest := ⟨hnd.2, fun c hc => hin c (List.mem_cons_of_mem cg hc)⟩
    have hdsnd : ((cg.2.filter
        (fun dg => !(cg.1 == "Build" && dg.1 == "Agentic patterns owned"))).map Prod.fst).Nodup :=
      (hin cg (List.mem_cons_self cg rest)).sublist ((List.filter_sublist cg.2).map Prod.fst)
    have hhead := inner_count tasks cg.1
      (cg.2.filter (fun dg => !(cg.1 == "Build" && dg.1 == "Agentic patterns owned"))) hdsnd
    have htail : (rest.map (fun cg2 =>
        ((cg2.2.filter (fun dg => !(cg2.1 == "Build" && dg.1 == "Agentic patterns owned"))).map
          (fun dg => (tasks.filter (classTo cg2.1 dg.1)).length)).sum)).sum =
        declaredCountExcept tasks rest := rfl
    unfold declaredCountExcept
    rw [List.map_cons, List.sum_cons, hhead, htail, ih hwfr]
    have hdis : ∀ t ∈ tasks,
        ¬((fun u => (cg.2.filter
            (fun dg => !(cg.1 == "Build" && dg.1 == "Agentic patterns owned"))).any
            (fun dg => classTo cg.1 dg.1 u)) t = true ∧
          (fun u => rest.any (fun cg2 =>
            (cg2.2.filter (fun dg => !(cg2.1 == "Build" && dg.1 == "Agentic patterns owned"))).any
              (fun dg => classTo cg2.1 dg.1 u))) t = true) := by
      intro t _ hpair
      obtain ⟨h1, h2⟩ := hpair
      rw [List.any_eq_true] at h1 h2
      obtain ⟨dg, hdg, hc1⟩ := h1
      obtain ⟨cg2, hcg2, hany2⟩ := h2
      rw [List.any_eq_true] at hany2
      obtain ⟨dg2, hdg2, hc2⟩ := hany2
      have heq := (classTo_inj t cg.1 dg.1 cg2.1 dg2.1 hc1 hc2).1
      exact hnd.1 (heq ▸ List.mem_map_of_mem Prod.fst hcg2)
    have hsplit := length_filter_or_disjoint tasks
      (fun u => (cg.2.filter
        (fun dg => !(cg.1 == "Build" && dg.1 == "Agentic patterns owned"))).any
        (fun dg => classTo cg.1 dg.1 u))
      (fun u => rest.any (fun cg2 =>
        (cg2.2.filter (fun dg => !(cg2.1 == "Build" && dg.1 == "Agentic patterns owned"))).any
          (fun dg => classTo cg2.1 dg.1 u))) hdis
    have hgoal : (tasks.filter (fun t => (cg :: rest).any (fun cg2 =>
        (cg2.2.filter (fun dg => !(cg2.1 == "Build" && dg.1 == "Agentic patterns owned"))).any
          (fun dg => classTo cg2.1 dg.1 t)))).length
        = (tasks.filter (fun u =>
            (cg.2.filter (fun dg => !(cg.1 == "Build" && dg.1 == "Agentic patterns owned"))).any
              (fun dg => classTo cg.1 dg.1 u) ||
            rest.any (fun cg2 =>
              (cg2.2.filter (fun dg => !(cg2.1 == "Build" && dg.1 == "Agentic patterns owned"))).any
                (fun dg => classTo cg2.1 dg.1 u)))).length := rfl
    rw [hgoal, hsplit]

theorem classified_any_eq (goals : Goals) (hwf : goalsWF goals) (t : Task) :
    classifiedDeclaredExceptPatterns goals t =
    goals.any (fun cg =>
      (cg.2.filter (fun dg => !(cg.1 == "Build" && dg.1 == "Agentic patterns owned"))).any
        (fun dg => classTo cg.1 dg.1 t)) := by
  cases hrhs : goals.any (fun cg =>
      (cg.2.filter (fun dg => !(cg.1 == "Build" && dg.1 == "Agentic patterns owned"))).any
        (fun dg => classTo cg.1 dg.1 t)) with
  | true =>
    rw [List.any_eq_true] at hrhs
    obtain ⟨cg, hcg, hany⟩ := hrhs
    rw [List.any_eq_true] at hany
    obtain ⟨dg, hdg, hct⟩ := hany
    rw [List.mem_filter] at hdg
    unfold classTo at hct
    have hcat := of_decide_eq_true hct
    unfold classifiedDeclaredExceptPatterns
    rw [hcat]
    have hgl : glookup2 goals cg.1 dg.1 = some dg.2 := by
      unfold glookup2
      rw [lookup_of_mem_nodup goals cg.1 cg.2 hwf.1 hcg]
      simp only [Option.some_bind]
      exact lookup_of_mem_nodup cg.2 dg.1 dg.2 (hwf.2 cg hcg) hdg.1
    simp only [hgl, Option.isSome_some, Bool.true_and]
    exact hdg.2
  | false =>
    rw [Bool.eq_false_iff]
    intro hl
    unfold classifiedDeclaredExceptPatterns at hl
    cases hcat : categorizeTask t with
    | error e => rw [hcat] at hl; cases hl
    | ok mo =>
      cases mo with
      | none => rw [hcat] at hl; cases hl
      | some m =>
        rw [hcat] at hl
        rw [Bool.and_eq_true] at hl
        obtain ⟨hsome, hnap⟩ := hl
        unfold glookup2 at hsome
        cases hgc : goals.lookup m.category with
        | none => rw [hgc] at hsome; cases hsome
        | some ds =>
          rw [hgc, Option.some_bind] at hsome
          cases hgd : ds.lookup m.deliverable with
          | none => rw [hgd] at hsome; cases hsome
          | some v =>
            have hmem1 := mem_of_lookup_eq_some goals m.category ds hgc
            have hmem2 := mem_of_lookup_eq_some ds m.deliverable v hgd
            have hct : classTo m.category m.deliverable t = true := by
              unfold classTo
              apply decide_eq_true
              rw [hcat]
            have : goals.any (fun cg =>
                (cg.2.filter (fun dg => !(cg.1 == "Build" && dg.1 == "Agentic patterns owned"))).any
                  (fun dg => classTo cg.1 dg.1 t)) = true := by
              rw [List.any_eq_true]
              refine ⟨(m.category, ds), hmem1, ?_⟩
              rw [List.any_eq_true]
              refine ⟨(m.deliverable, v), List.mem_filter.mpr ⟨hmem2, hnap⟩, hct⟩
            rw [this] at hrhs
            cases hrhs

theorem declaredCountExcept_eq (tasks : List Task) (goals : Goals) (hwf : goalsWF goals) :
    declaredCountExcept tasks goals =
    (tasks.filter (classifiedDeclaredExceptPatterns goals)).length := by
  rw [outer_count tasks goals hwf]
  congr 1
  apply List.filter_congr
  intro t _
  exact (classified_any_eq goals hwf t).symm

/-- C1 (corrected): in the progress object returned by calculateProgress, the
sum of the completed counts over the declared (category, deliverable) slots
other than Build / Agentic patterns owned equals the number of input tasks
whose classification is such a declared pair; tasks classifying to none or to
an undeclared pair contribute nothing. The sum over ALL declared slots claimed
originally is false: the final override rewrites the Build / Agentic patterns
owned count to the number of distinct detected patterns, re-counting content
tasks already counted in their own slot (see aggregation_sum_counterexample). -/
theorem aggregation_sum_amended (goals : Goals) (tasks : List Task) (prog : Progress)
    (hwf : goalsWF goals) (h : calculateProgress tasks goals = .ok prog) :
    sumCompletedExceptPatterns prog =
    (tasks.filter (classifiedDeclaredExceptPatterns goals)).length := by
  obtain ⟨p1, pats, ptasks, hp1, hpats, hprog⟩ := calculateProgress_shape tasks goals prog hwf h
  rw [hprog]
  by_cases hb : (lookup2 p1 "Build" "Agentic patterns owned").isSome = true
  · rw [if_pos hb, sumExcept_override, hp1, sumExcept_slotAdd_init]
    exact declaredCountExcept_eq tasks goals hwf
  · rw [if_neg hb, hp1, sumExcept_slotAdd_init]
    exact declaredCountExcept_eq tasks goals hwf

/-- Counterexample to the original C1: against goalsCX the single blog task
about "skills" is counted once in Blogs / Blog posts and once more, as one
distinct pattern, in the overridden Build / Agentic patterns owned slot, so
the sum over all slots is 2 while exactly one task classifies to a declared
pair. -/
theorem aggregation_sum_counterexample :
    (calculateProgress [unassignedBlogTask] goalsCX).map sumCompleted = .ok 2 ∧
    ([unassignedBlogTask].filter (classifiedDeclared goalsCX)).length = 1 :=
  ⟨by decide, by decide⟩

theorem aggregation_sum_amended_witness :
    goalsWF goalsCX ∧
    sumCompletedExceptPatterns progCX =
      ([unassignedBlogTask].filter (classifiedDeclaredExceptPatterns goalsCX)).length :=
  ⟨by unfold goalsWF; decide,
   aggregation_sum_amended goalsCX [unassignedBlogTask] progCX
     (by unfold goalsWF; decide) (by decide)⟩

theorem progress_shape_and_counts_witness :
    goalsWF goalsCX ∧
    ((∀ c d : String, (lookup2 progCX c d).isSome = (glookup2 goalsCX c d).isSome) ∧
     (∀ (c d : String) (e : DeliverableProgress), ¬(c = "Build" ∧ d = "Agentic patterns owned") →
       lookup2 progCX c d = some e →
       e.completed = e.tasks.length ∧
       e.tasks = ([unassignedBlogTask].filter (classTo c d)).map taskDataOf)) :=
  ⟨by unfold goalsWF; decide,
   progress_shape_and_counts goalsCX [unassignedBlogTask] progCX
     (by unfold goalsWF; decide) (by decide)⟩

theorem patterns_set_order_invariant_witness :
    [unassignedBlogTask, recipeBlogTask].Perm [recipeBlogTask, unassignedBlogTask] ∧
    ((eCX2.completed = eCX2P.completed ∧
      ∃ pf pfP, eCX2.patternsFound = some pf ∧ eCX2P.patternsFound = some pfP ∧
        (∀ x, x ∈ pf ↔ x ∈ pfP) ∧ pf.length = pfP.length) ∧
     (∀ prog2, calculateProgress [unassignedBlogTask, recipeBlogTask] goalsCX = .ok prog2 →
        prog2 = progCX2)) :=
  ⟨List.Perm.swap recipeBlogTask unassignedBlogTask [],
   patterns_set_order_invariant goalsCX [unassignedBlogTask, recipeBlogTask]
     [recipeBlogTask, unassignedBlogTask] progCX2 progCX2P
     (List.Perm.swap recipeBlogTask unassignedBlogTask [])
     (by unfold goalsWF; decide) (by decide) (by decide)
     eCX2 eCX2P (by decide) (by decide)⟩

end Tracker
